import Mathlib

/-!
Verification of the nitai merge-request review service core.

The definitions below are a shallow embedding of the Go sources:
  * `api-server/internal/crypto/crypto.go` (AES-256-GCM token encryption),
  * `api-server/internal/handler/repo.go` (webhook ingress),
  * `api-server/internal/db/queries.go` (review-run queries),
  * `go-services/internal/db/queries.go` (fetcher/poster queries),
  * `go-services/internal/prreview/service.go` (orchestrator, poster),
  * the `DiffFetcher` service in `go-services`.
Database tables become lists of rows, SQL statements become list
operations, external calls (provider adapter, Restate, reviewer) become
explicit environment inputs, and machine integers become `Int`/`Nat`.
-/

namespace Nitai

/-! ## Review-run data model (`review_runs` table) -/

/-- Status enumeration of a review run, as in the `review_runs.status` column. -/
inductive RunStatus
  | draft
  | pending
  | running
  | completed
  | failed
  | skipped
  deriving DecidableEq, Repr

/-- One row of the `review_runs` table.  `createdAt` is a logical timestamp:
rows are only ever inserted with strictly increasing `createdAt`, which models
the `created_at DESC` orderings of the SQL queries. -/
structure ReviewRun where
  id : Nat
  repoId : String
  mrNumber : Int
  status : RunStatus
  summary : Option String := none
  diffHash : Option String := none
  invocationId : Option String := none
  createdAt : Nat
  deriving DecidableEq, Repr

/-- The `review_runs` table plus the id/timestamp generator. -/
structure RunsDB where
  runs : List ReviewRun
  nextId : Nat
  deriving DecidableEq, Repr

/-- The empty `review_runs` table. -/
def RunsDB.empty : RunsDB := { runs := [], nextId := 0 }

/-- `CreateReviewRun` (both `api-server` and `go-services` variants):
`INSERT INTO review_runs (repo_id, mr_number, status) VALUES ($1,$2,'pending') RETURNING id`. -/
def createReviewRun (db : RunsDB) (repoId : String) (mr : Int) : Nat × RunsDB :=
  (db.nextId,
    { runs := db.runs ++
        [{ id := db.nextId, repoId := repoId, mrNumber := mr, status := .pending,
           createdAt := db.nextId }],
      nextId := db.nextId + 1 })

/-- `CreateDraftReviewRun`: insert with status `'draft'`. -/
def createDraftReviewRun (db : RunsDB) (repoId : String) (mr : Int) : Nat × RunsDB :=
  (db.nextId,
    { runs := db.runs ++
        [{ id := db.nextId, repoId := repoId, mrNumber := mr, status := .draft,
           createdAt := db.nextId }],
      nextId := db.nextId + 1 })

/-- `CreateReviewRunWithInvocation`: insert with status `'pending'` and a
`restate_invocation_id`. -/
def createReviewRunWithInvocation (db : RunsDB) (repoId : String) (mr : Int)
    (invocationId : String) : Nat × RunsDB :=
  (db.nextId,
    { runs := db.runs ++
        [{ id := db.nextId, repoId := repoId, mrNumber := mr, status := .pending,
           invocationId := some invocationId, createdAt := db.nextId }],
      nextId := db.nextId + 1 })

/-- `UpdateReviewRunStatus`: `UPDATE review_runs SET status = $1 WHERE id = $2`. -/
def updateReviewRunStatus (db : RunsDB) (runId : Nat) (st : RunStatus) : RunsDB :=
  { db with runs := db.runs.map fun r => if r.id == runId then { r with status := st } else r }

/-- `UpdateReviewRunSummary`: `UPDATE review_runs SET summary = $1 WHERE id = $2`. -/
def updateReviewRunSummary (db : RunsDB) (runId : Nat) (s : String) : RunsDB :=
  { db with runs := db.runs.map fun r => if r.id == runId then { r with summary := some s } else r }

/-- `UpdateReviewRunDiffHash`: `UPDATE review_runs SET diff_hash = $1 WHERE id = $2`. -/
def updateReviewRunDiffHash (db : RunsDB) (runId : Nat) (h : String) : RunsDB :=
  { db with runs := db.runs.map fun r => if r.id == runId then { r with diffHash := some h } else r }

/-- `UpdateReviewRunInvocationID`: `UPDATE review_runs SET restate_invocation_id = $1 WHERE id = $2`. -/
def updateReviewRunInvocationID (db : RunsDB) (runId : Nat) (inv : String) : RunsDB :=
  { db with runs := db.runs.map fun r =>
      if r.id == runId then { r with invocationId := some inv } else r }

/-- Whether a run row counts as active (`status IN ('pending','running')`). -/
def ReviewRun.isActive (r : ReviewRun) : Bool :=
  r.status == .pending || r.status == .running

/-- The active rows for one `(repo_id, mr_number)` pair, in `created_at` order. -/
def activeRuns (db : RunsDB) (repoId : String) (mr : Int) : List ReviewRun :=
  db.runs.filter fun r => r.repoId == repoId && r.mrNumber == mr && r.isActive

/-- Number of `pending`/`running` rows for one `(repo_id, mr_number)` pair. -/
def activeCount (db : RunsDB) (repoId : String) (mr : Int) : Nat :=
  (activeRuns db repoId mr).length

/-- The single-active invariant claimed by the specification. -/
def SingleActiveInvariant (db : RunsDB) : Prop :=
  ∀ repoId mr, activeCount db repoId mr ≤ 1

/-- `GetActiveInvocationID`: `restate_invocation_id` of the most recent
`pending`/`running` row (`ORDER BY created_at DESC LIMIT 1`); `nil` both when
no row exists and when the column is NULL, exactly as the Go caller sees it. -/
def getActiveInvocationID (db : RunsDB) (repoId : String) (mr : Int) : Option String :=
  (activeRuns db repoId mr).getLast?.bind fun r => r.invocationId

/-- `TransitionDraftToReview`: set the most recent `'draft'` row for the pair
to `'pending'`; no-op when none exists. -/
def transitionDraftToReview (db : RunsDB) (repoId : String) (mr : Int) : RunsDB :=
  match (db.runs.filter fun r =>
      r.repoId == repoId && r.mrNumber == mr && r.status == .draft).getLast? with
  | none => db
  | some row => updateReviewRunStatus db row.id .pending

/-- `GetLatestReviewDiffHash`: `diff_hash` of the most recent `'completed'`
row with a non-NULL `diff_hash` (`ORDER BY created_at DESC LIMIT 1`). -/
def getLatestReviewDiffHash (db : RunsDB) (repoId : String) (mr : Int) : Option String :=
  ((db.runs.filter fun r =>
      r.repoId == repoId && r.mrNumber == mr && r.status == .completed && r.diffHash.isSome).getLast?).bind
    fun r => r.diffHash

/-- Status of a run row, looked up by id. -/
def getRunStatus (db : RunsDB) (runId : Nat) : Option RunStatus :=
  (db.runs.find? fun r => r.id == runId).map fun r => r.status

/-! ## Review-comment data model (`review_comments` table) -/

/-- One row of the `review_comments` table. -/
structure ReviewCommentRow where
  id : Nat
  reviewRunId : Nat
  filePath : String
  lineStart : Int
  lineEnd : Int
  body : String
  providerCommentId : Option String := none
  posted : Bool := false
  createdAt : Nat
  deriving DecidableEq, Repr

/-- Input for `InsertReviewComments` (one reviewer comment). -/
structure ReviewCommentInput where
  filePath : String
  lineStart : Int
  lineEnd : Int
  body : String
  deriving DecidableEq, Repr

/-- The `review_comments` table plus the id/timestamp generator. -/
structure CommentDB where
  rows : List ReviewCommentRow
  nextId : Nat
  deriving DecidableEq, Repr

/-- The empty `review_comments` table. -/
def CommentDB.empty : CommentDB := { rows := [], nextId := 0 }

/-- `InsertReviewComments`: bulk insert with `posted = false` and no
`provider_comment_id` (the column is absent from the INSERT list, so NULL). -/
def insertReviewComments (db : CommentDB) (runId : Nat) (cs : List ReviewCommentInput) :
    CommentDB :=
  cs.foldl
    (fun d c =>
      { rows := d.rows ++
          [{ id := d.nextId, reviewRunId := runId, filePath := c.filePath,
             lineStart := c.lineStart, lineEnd := c.lineEnd, body := c.body,
             createdAt := d.nextId }],
        nextId := d.nextId + 1 })
    db

/-- `GetUnpostedComments`: `WHERE review_run_id = $1 AND posted = false
ORDER BY created_at` (rows are stored in `created_at` order). -/
def getUnpostedComments (db : CommentDB) (runId : Nat) : List ReviewCommentRow :=
  db.rows.filter fun c => c.reviewRunId == runId && c.posted == false

/-- `MarkCommentPosted`: `UPDATE review_comments SET posted = true,
provider_comment_id = $1 WHERE id = $2`. -/
def markCommentPosted (db : CommentDB) (commentId : Nat) (providerCommentId : String) :
    CommentDB :=
  { db with rows := db.rows.map fun c =>
      if c.id == commentId then
        { c with posted := true, providerCommentId := some providerCommentId }
      else c }

/-- The writers of `review_comments` reachable from the core. -/
inductive CommentOp
  | insert (runId : Nat) (cs : List ReviewCommentInput)
  | mark (commentId : Nat) (providerCommentId : String)
  deriving DecidableEq, Repr

/-- Apply one `review_comments` write. -/
def applyCommentOp (db : CommentDB) : CommentOp → CommentDB
  | .insert runId cs => insertReviewComments db runId cs
  | .mark cid pcid => markCommentPosted db cid pcid

/-- Invariant relating the derived `posted` flag to `provider_comment_id`:
`posted` is true exactly on rows whose `provider_comment_id` is non-NULL. -/
def PostedMatchesProviderId (db : CommentDB) : Prop :=
  ∀ c ∈ db.rows, c.posted = true ↔ c.providerCommentId ≠ none

/-! ## Provider adapter error taxonomy and `classifyProviderError`

`go-services/internal/provider` defines the sentinel errors; both
`difffetcher` and `postreview` contain an identical `classifyProviderError`
mapping the first three to `restate.TerminalError` and everything else to a
plain (retryable) error. -/

/-- The sentinel error kinds of the provider adapter.  `transient` stands for
any network/5xx error that matches none of the sentinels. -/
inductive ProviderErrorKind
  | notFound
  | unauthorized
  | forbidden
  | rateLimited
  | invalidInput
  | transient
  deriving DecidableEq, Repr

/-- An error as seen by the Restate runtime: `terminal` (never retried,
carrying the HTTP-like code passed to `restate.TerminalError`) or a plain
error which the runtime retries. -/
inductive RestateError
  | terminal (code : Nat) (kind : ProviderErrorKind)
  | retryable (kind : ProviderErrorKind)
  deriving DecidableEq, Repr

/-- Whether the runtime treats the error as terminal (no retry). -/
def RestateError.isTerminal : RestateError → Bool
  | .terminal _ _ => true
  | .retryable _ => false

/-- `classifyProviderError` from `go-services` (`difffetcher` and `postreview`
hold the same function): NotFound→404, Unauthorized→401, Forbidden→403 as
terminal errors; the default branch returns the error unclassified
(retryable). -/
def classifyProviderError : ProviderErrorKind → RestateError
  | .notFound => .terminal 404 .notFound
  | .unauthorized => .terminal 401 .unauthorized
  | .forbidden => .terminal 403 .forbidden
  | k => .retryable k

/-! ## Diff fetcher (`DiffFetcher.FetchPRDetails`) -/

/-- Repository row as used by `go-services` (`GetRepoWithProvider`). -/
structure GoRepoRow where
  id : String
  remoteId : String
  name : String
  fullPath : String
  deriving DecidableEq, Repr

/-- Provider row as used by `go-services` (`GetRepoWithProvider`). -/
structure GoProviderRow where
  id : String
  type : String
  baseURL : String
  tokenEncrypted : List Nat
  deriving DecidableEq, Repr

/-- `newProvider` accepts exactly the GitLab provider types. -/
def isSupportedProviderType (t : String) : Bool :=
  t == "gitlab_self_hosted" || t == "gitlab_cloud"

/-- `provider.MRDetails`. -/
structure MRDetails where
  title : String
  description : String
  author : String
  sourceBranch : String
  targetBranch : String
  headSHA : String
  draft : Bool
  deriving DecidableEq, Repr

/-- `provider.ChangedFile` (fields used by the fetcher). -/
structure ChangedFile where
  oldPath : String
  newPath : String
  deriving DecidableEq, Repr

/-- `provider.MRDiff`. -/
structure MRDiff where
  unifiedDiff : String
  changedFiles : List ChangedFile
  changedLines : Nat
  deriving DecidableEq, Repr

/-- `difffetcher.FetchRequest`. -/
structure FetchRequest where
  repoId : String
  mrNumber : Int
  force : Bool
  deriving DecidableEq, Repr

/-- `difffetcher.FetchResponse`; defaults are the Go zero values, so a
response literal that omits a field leaves it at its zero value exactly as
the Go struct literal does. -/
structure FetchResponse where
  diff : String := ""
  mrTitle : String := ""
  mrDescription : String := ""
  mrAuthor : String := ""
  sourceBranch : String := ""
  targetBranch : String := ""
  changedFiles : List String := []
  changedLines : Nat := 0
  diffTooLarge : Bool := false
  repoRemoteId : String := ""
  diffHash : String := ""
  skip : Bool := false
  draft : Bool := false
  deriving DecidableEq, Repr

/-- `maxChangedLines` from `difffetcher`. -/
def maxChangedLines : Nat := 5000

/-- Failure modes of `FetchPRDetails` as the orchestrator sees them. -/
inductive FetchErr
  | repoNotFound
  | decryptFailed
  | badProviderType
  | provider (e : RestateError)
  deriving DecidableEq, Repr

/-- Calls made to the provider adapter (and, for the poster, the note /
inline-discussion writes), recorded as a trace. -/
inductive ProviderCall
  | getMRDetails
  | getMRDiff
  | postNote (body : String)
  | postInline (commentId : Nat)
  deriving DecidableEq, Repr

/-- Environment of one `FetchPRDetails` execution: the results of the
repository/provider lookup, of the secret-store decryption, and of the two
provider-adapter reads. -/
structure FetchEnv where
  repoProv : Option (GoRepoRow × GoProviderRow)
  decryptResult : Except Unit (List Nat)
  detailsResult : Except ProviderErrorKind MRDetails
  diffResult : Except ProviderErrorKind MRDiff

/-- `DiffFetcher.FetchPRDetails`, straight-line translation.  Returns the
result together with the trace of provider-adapter calls it performed. -/
def fetchPRDetails (env : FetchEnv) (db : RunsDB) (req : FetchRequest) :
    Except FetchErr FetchResponse × List ProviderCall :=
  match env.repoProv with
  | none => (.error .repoNotFound, [])
  | some (repo, prov) =>
    match env.decryptResult with
    | .error _ => (.error .decryptFailed, [])
    | .ok _token =>
      if !isSupportedProviderType prov.type then (.error .badProviderType, [])
      else
        match env.detailsResult with
        | .error e => (.error (.provider (classifyProviderError e)), [.getMRDetails])
        | .ok details =>
          let diffHash := details.headSHA
          let skipNow := !req.force &&
            (match getLatestReviewDiffHash db req.repoId req.mrNumber with
             | some prevHash => prevHash == diffHash
             | none => false)
          if skipNow then
            (.ok { skip := true, diffHash := diffHash }, [.getMRDetails])
          else
            match env.diffResult with
            | .error e =>
                (.error (.provider (classifyProviderError e)), [.getMRDetails, .getMRDiff])
            | .ok diff =>
                (.ok { diff := diff.unifiedDiff
                       mrTitle := details.title
                       mrDescription := details.description
                       mrAuthor := details.author
                       sourceBranch := details.sourceBranch
                       targetBranch := details.targetBranch
                       changedFiles := diff.changedFiles.map fun f => f.newPath
                       changedLines := diff.changedLines
                       diffTooLarge := diff.changedLines > maxChangedLines
                       repoRemoteId := repo.remoteId
                       diffHash := diffHash
                       draft := details.draft },
                 [.getMRDetails, .getMRDiff])

/-! ## Comment poster (`PostReview.Post`) -/

/-- `postreview.PostRequest`. -/
structure PostRequest where
  reviewRunId : Nat
  repoId : String
  mrNumber : Int
  repoRemoteId : String
  summary : String
  dryRun : Bool
  deriving DecidableEq, Repr

/-- `postreview.PostResponse`. -/
structure PostResponse where
  commentsPosted : Nat
  summaryPosted : Bool
  deriving DecidableEq, Repr

/-- Failure modes of `Post` as the orchestrator sees them. -/
inductive PostErr
  | repoNotFound
  | decryptFailed
  | badProviderType
  | provider (e : RestateError)
  deriving DecidableEq, Repr

/-- Environment of one `Post` execution: lookup/decrypt results, the result
of the summary `PostComment`, and the per-comment result of
`PostInlineComment` (keyed by the comment row id). -/
structure PostEnv where
  repoProv : Option (GoRepoRow × GoProviderRow)
  decryptResult : Except Unit (List Nat)
  postCommentResult : Except ProviderErrorKind String
  inlineResult : Nat → Except ProviderErrorKind String

/-- Joint database state touched by the poster and the orchestrator. -/
structure CoreDB where
  runs : RunsDB
  comments : CommentDB
  deriving DecidableEq, Repr

/-- The `for _, c := range comments` loop of `Post`.  On `ErrInvalidInput`
the row is marked with the sentinel `"skipped"` and the loop continues; on
any other error the loop stops, returning partial progress as an error; on
success the row is marked with the returned provider comment id. -/
def postLoop (env : PostEnv) :
    CommentDB → List ReviewCommentRow → Nat → List ProviderCall →
    (Except PostErr PostResponse) × CommentDB × List ProviderCall
  | db, [], posted, calls => (.ok { commentsPosted := posted, summaryPosted := true }, db, calls)
  | db, c :: rest, posted, calls =>
    let calls := calls ++ [.postInline c.id]
    match env.inlineResult c.id with
    | .error .invalidInput =>
        postLoop env (markCommentPosted db c.id "skipped") rest posted calls
    | .error e => (.error (.provider (classifyProviderError e)), db, calls)
    | .ok resultId =>
        postLoop env (markCommentPosted db c.id resultId) rest (posted + 1) calls

/-- `PostReview.Post`, straight-line translation.  Returns the result, the
updated database state, and the trace of provider writes. -/
def postReview (env : PostEnv) (st : CoreDB) (req : PostRequest) :
    (Except PostErr PostResponse) × CoreDB × List ProviderCall :=
  let st := { st with runs := updateReviewRunSummary st.runs req.reviewRunId req.summary }
  if req.dryRun then (.ok { commentsPosted := 0, summaryPosted := false }, st, [])
  else
    match env.repoProv with
    | none => (.error .repoNotFound, st, [])
    | some (_repo, prov) =>
      match env.decryptResult with
      | .error _ => (.error .decryptFailed, st, [])
      | .ok _token =>
        if !isSupportedProviderType prov.type then (.error .badProviderType, st, [])
        else
          match env.postCommentResult with
          | .error e => (.error (.provider (classifyProviderError e)), st, [.postNote req.summary])
          | .ok _noteId =>
            let unposted := getUnpostedComments st.comments req.reviewRunId
            let r := postLoop env st.comments unposted 0 [.postNote req.summary]
            (r.1, { st with comments := r.2.1 }, r.2.2)

/-! ## Orchestrator (`PRReview.Run`) -/

/-- `prreview.RunRequest`; an absent `run_id` (empty string in Go) is `none`. -/
structure RunRequest where
  runId : Option Nat
  repoId : String
  mrNumber : Int
  dryRun : Bool
  force : Bool
  deriving DecidableEq, Repr

/-- One inline comment in the reviewer response. -/
structure ReviewerOutput where
  summary : String
  comments : List ReviewCommentInput
  deriving DecidableEq, Repr

/-- The debounce interval: `3*60*1000` milliseconds (`3 * time.Minute`). -/
def debounceMs : Int := 3 * 60 * 1000

/-- Result of the debounce prologue of `PRReview.Run`: whether the execution
suspends (durable sleep) and the new `last_started_at` value. -/
structure DebounceResult where
  sleeps : Bool
  newLastStartedAt : Int
  deriving DecidableEq, Repr

/-- The debounce prologue: `restate.Get` of `last_started_at` (zero value `0`
when absent), `restate.Set` it to `now`, sleep 3 minutes iff the previous
value was positive and less than 3 minutes ago. -/
def runDebounce (lastStartedAt : Option Int) (now : Int) : DebounceResult :=
  let lastStarted := lastStartedAt.getD 0
  { sleeps := decide (lastStarted > 0 ∧ now - lastStarted < debounceMs)
    newLastStartedAt := now }

/-- The claim-side reading of the debounce condition: a previously stored
value exists and lies within 3 minutes of `now`. -/
def DebounceSpec (lastStartedAt : Option Int) (now : Int) : Prop :=
  ∃ prev, lastStartedAt = some prev ∧ now - prev < debounceMs

/-- The canned too-large summary posted by the orchestrator. -/
def tooLargeSummary : String :=
  "This PR is too large to review automatically (> 5000 changed lines)."

/-- Failure modes of `PRReview.Run`. -/
inductive OrchErr
  | fetch (e : FetchErr)
  | reviewer
  | post (e : PostErr)
  deriving DecidableEq, Repr

/-- Environment of one `PRReview.Run` execution: the per-key durable state,
the wall clock, the fetcher and poster environments, and the reviewer
response. -/
structure OrchEnv where
  lastStartedAt : Option Int
  now : Int
  fetchEnv : FetchEnv
  reviewerResult : Except Unit ReviewerOutput
  postEnv : PostEnv

/-- Result of `PRReview.Run`: the returned run id or the propagated error,
the final database state, whether the debounce slept, and the provider-call
trace. -/
structure OrchResult where
  result : Except OrchErr Nat
  db : CoreDB
  slept : Bool
  calls : List ProviderCall

/-- `PRReview.Run`, straight-line translation.  The `fail` helper of the Go
code (mark `failed`, propagate) appears as `updateReviewRunStatus … .failed`
on every error path after run-row selection. -/
def prreviewRun (env : OrchEnv) (st : CoreDB) (req : RunRequest) : OrchResult :=
  let deb := runDebounce env.lastStartedAt env.now
  let (runId, runs1) :=
    match req.runId with
    | some rid => (rid, st.runs)
    | none => createReviewRun st.runs req.repoId req.mrNumber
  let st : CoreDB := { st with runs := runs1 }
  match fetchPRDetails env.fetchEnv st.runs
      { repoId := req.repoId, mrNumber := req.mrNumber, force := req.force } with
  | (.error e, calls) =>
      { result := .error (.fetch e)
        db := { st with runs := updateReviewRunStatus st.runs runId .failed }
        slept := deb.sleeps, calls := calls }
  | (.ok fetchResp, calls) =>
    if fetchResp.draft then
      { result := .ok runId
        db := { st with runs := updateReviewRunStatus st.runs runId .draft }
        slept := deb.sleeps, calls := calls }
    else if fetchResp.skip then
      { result := .ok runId
        db := { st with runs := updateReviewRunStatus st.runs runId .skipped }
        slept := deb.sleeps, calls := calls }
    else
      let st : CoreDB :=
        if fetchResp.diffHash != "" then
          { st with runs := updateReviewRunDiffHash st.runs runId fetchResp.diffHash }
        else st
      let st : CoreDB := { st with runs := updateReviewRunStatus st.runs runId .running }
      if fetchResp.diffTooLarge then
        match postReview env.postEnv st
            { reviewRunId := runId, repoId := req.repoId, mrNumber := req.mrNumber,
              repoRemoteId := fetchResp.repoRemoteId, summary := tooLargeSummary,
              dryRun := req.dryRun } with
        | (.error e, pst, pcalls) =>
            { result := .error (.post e)
              db := { pst with runs := updateReviewRunStatus pst.runs runId .failed }
              slept := deb.sleeps, calls := calls ++ pcalls }
        | (.ok _, pst, pcalls) =>
            { result := .ok runId
              db := { pst with runs := updateReviewRunStatus pst.runs runId .completed }
              slept := deb.sleeps, calls := calls ++ pcalls }
      else
        match env.reviewerResult with
        | .error _ =>
            { result := .error .reviewer
              db := { st with runs := updateReviewRunStatus st.runs runId .failed }
              slept := deb.sleeps, calls := calls }
        | .ok reviewer =>
          let st : CoreDB :=
            { st with comments := insertReviewComments st.comments runId reviewer.comments }
          match postReview env.postEnv st
              { reviewRunId := runId, repoId := req.repoId, mrNumber := req.mrNumber,
                repoRemoteId := fetchResp.repoRemoteId, summary := reviewer.summary,
                dryRun := req.dryRun } with
          | (.error e, pst, pcalls) =>
              { result := .error (.post e)
                db := { pst with runs := updateReviewRunStatus pst.runs runId .failed }
                slept := deb.sleeps, calls := calls ++ pcalls }
          | (.ok _, pst, pcalls) =>
              { result := .ok runId
                db := { pst with runs := updateReviewRunStatus pst.runs runId .completed }
                slept := deb.sleeps, calls := calls ++ pcalls }

/-! ## Webhook ingress (`WebhookHandler.ServeHTTP`, `isDraftToReadyTransition`) -/

/-- A decoded JSON value as Go's `encoding/json` unmarshals into `any`:
`nil`, `bool`, `float64`, `string`, `[]any`, `map[string]any`.  Only the
`bool` payload matters for the draft-transition check; numbers are kept
abstract. -/
inductive Jsonv
  | null
  | bool (b : Bool)
  | num (n : Int)
  | str (s : String)
  | arr
  | obj
  deriving DecidableEq, Repr

/-- Result of Go's `v.(bool)` type assertion: the value and the `ok` flag. -/
def Jsonv.asBool : Jsonv → Bool × Bool
  | .bool b => (b, true)
  | _ => (false, false)

/-- `GitLabFieldChange`: `previous`/`current` decoded into `any`. -/
structure GitLabFieldChange where
  previous : Jsonv
  current : Jsonv
  deriving DecidableEq, Repr

/-- `GitLabWebhookChanges`: the optional `changes.draft` object. -/
structure GitLabWebhookChanges where
  draft : Option GitLabFieldChange
  deriving DecidableEq, Repr

/-- `GitLabMRAttributes`. -/
structure GitLabMRAttributes where
  iid : Int
  action : String
  draft : Bool
  workInProgress : Bool
  deriving DecidableEq, Repr

/-- `GitLabWebhookProject`. -/
structure GitLabWebhookProject where
  id : Int
  deriving DecidableEq, Repr

/-- `GitLabWebhookPayload`. -/
structure GitLabWebhookPayload where
  objectKind : String
  project : GitLabWebhookProject
  objectAttributes : GitLabMRAttributes
  changes : Option GitLabWebhookChanges
  deriving DecidableEq, Repr

/-- `isDraftToReadyTransition`: true only when `changes.draft` is present and
both `previous` and `current` assert to `bool` with `previous = true` and
`current = false`. -/
def isDraftToReadyTransition : Option GitLabWebhookChanges → Bool
  | none => false
  | some changes =>
    match changes.draft with
    | none => false
    | some fc =>
      let (prev, prevOk) := fc.previous.asBool
      let (curr, currOk) := fc.current.asBool
      prevOk && currOk && prev && !curr

/-- Provider row as used by the `api-server` webhook path. -/
structure ApiProviderRow where
  id : String
  webhookSecret : Option String
  deriving DecidableEq, Repr

/-- Repository row as used by the `api-server` webhook path. -/
structure ApiRepoRow where
  id : String
  providerId : String
  remoteId : String
  reviewEnabled : Bool
  deriving DecidableEq, Repr

/-- Result of a store lookup: a row, `pgx.ErrNoRows`, or another error. -/
inductive LookupResult (α : Type)
  | ok (a : α)
  | noRows
  | otherErr
  deriving DecidableEq, Repr

/-- Everything the handler's collaborators (store and dispatcher) answer
during one request. -/
structure WebhookEnv where
  getProvider : String → LookupResult ApiProviderRow
  getRepoByRemoteID : String → String → LookupResult ApiRepoRow
  getActiveInvocationID : LookupResult (Option String)
  createDraftRunOk : Bool
  sendResult : Option String
  createRunOk : Bool
  hasDispatcher : Bool

/-- An incoming HTTP request as the handler reads it: method, path, the
`X-Gitlab-Token` header (empty string when absent, as `Header.Get` returns),
and the JSON body (`none` when `json.Decode` fails). -/
structure WebhookRequest where
  method : String
  path : String
  gitlabToken : String
  body : Option GitLabWebhookPayload
  deriving DecidableEq, Repr

/-- Externally visible effects of one webhook request, in program order. -/
inductive WebhookAction
  | createDraftRun (repoId : String) (mr : Int)
  | transitionDraftToReview (repoId : String) (mr : Int)
  | cancelInvocation (invocationId : String)
  | sendPRReview (key : String)
  | createRunWithInvocation (repoId : String) (mr : Int) (invocationId : String)
  deriving DecidableEq, Repr

/-- `strings.TrimPrefix`, computed on the character list. -/
def trimPrefixStr (s pre : String) : String :=
  if pre.data.isPrefixOf s.data then String.mk (s.data.drop pre.data.length) else s

/-- `strings.TrimSuffix`, computed on the character list. -/
def trimSuffixStr (s suf : String) : String :=
  if suf.data.reverse.isPrefixOf s.data.reverse then
    String.mk (s.data.take (s.data.length - suf.data.length))
  else s

/-- Provider id extracted from the request path. -/
def providerIdOfPath (path : String) : String :=
  trimSuffixStr (trimPrefixStr path "/webhooks/") "/"

/-- `WebhookHandler.ServeHTTP`, straight-line translation; returns the HTTP
status code and the effects performed, in order.  `subtle.ConstantTimeCompare`
of the token with the stored secret is string equality. -/
def serveWebhook (env : WebhookEnv) (r : WebhookRequest) : Nat × List WebhookAction :=
  if r.method != "POST" then (405, [])
  else
    let providerID := providerIdOfPath r.path
    if providerID == "" then (404, [])
    else
      match env.getProvider providerID with
      | .noRows => (404, [])
      | .otherErr => (500, [])
      | .ok provider =>
        match provider.webhookSecret with
        | none => (401, [])
        | some secret =>
          if r.gitlabToken == "" then (401, [])
          else if r.gitlabToken != secret then (401, [])
          else
            match r.body with
            | none => (400, [])
            | some payload =>
              if payload.objectKind != "merge_request" then (200, [])
              else
                let action := payload.objectAttributes.action
                let mrIID := payload.objectAttributes.iid
                if !(action == "open" || action == "update" || action == "reopen") then
                  (200, [])
                else
                  let remoteID := toString payload.project.id
                  match env.getRepoByRemoteID providerID remoteID with
                  | .noRows => (200, [])
                  | .otherErr => (500, [])
                  | .ok repo =>
                    if !repo.reviewEnabled then (200, [])
                    else
                      let isDraft := payload.objectAttributes.draft ||
                        payload.objectAttributes.workInProgress
                      let isDraftToReady := action == "update" &&
                        isDraftToReadyTransition payload.changes
                      if isDraft && !isDraftToReady then
                        if env.createDraftRunOk then
                          (200, [.createDraftRun repo.id mrIID])
                        else (500, [.createDraftRun repo.id mrIID])
                      else
                        let acts : List WebhookAction :=
                          if isDraftToReady then [.transitionDraftToReview repo.id mrIID]
                          else []
                        if !env.hasDispatcher then (200, acts)
                        else
                          let acts := acts ++
                            (match env.getActiveInvocationID with
                             | .ok (some inv) => [.cancelInvocation inv]
                             | _ => [])
                          match env.sendResult with
                          | none => (500, acts)
                          | some invocationID =>
                            let key := repo.id ++ "-" ++ toString mrIID
                            let acts := acts ++ [.sendPRReview key]
                            if env.createRunOk then
                              (200, acts ++ [.createRunWithInvocation repo.id mrIID invocationID])
                            else
                              (500, acts ++ [.createRunWithInvocation repo.id mrIID invocationID])

/-! ## Run-row writers as a transition system (single-active invariant)

The operations that create `pending` rows: the webhook dispatch path of
`ServeHTTP`, the admin `TriggerReview` RPC, and the orchestrator's own
run-row creation (`PRReview.Run` with an empty `run_id`). -/

/-- Runtime-facing effects of the run-row writers. -/
inductive CoreAction
  | cancel (invocationId : String)
  | submit (key : String)
  deriving DecidableEq, Repr

/-- One operation of the dispatch layer.  `webhookDispatch` is the tail of
`ServeHTTP` once an enabled non-draft MR event passed all checks
(`draftToReady` tells whether the event was a draft→ready transition);
`webhookDraft` is the draft branch; `triggerReview` is the admin RPC;
`orchCreateRun` is `PRReview.Run` creating its own row. -/
inductive CoreOp
  | webhookDispatch (repoId : String) (mr : Int) (draftToReady : Bool) (newInv : String)
  | webhookDraft (repoId : String) (mr : Int)
  | triggerReview (repoId : String) (mr : Int) (newInv : String)
  | orchCreateRun (repoId : String) (mr : Int)
  deriving DecidableEq, Repr

/-- Apply one operation to the `review_runs` table, returning the new table
and the runtime calls made, in order. -/
def applyCoreOp (db : RunsDB) : CoreOp → RunsDB × List CoreAction
  | .webhookDispatch repoId mr draftToReady newInv =>
    let db1 := if draftToReady then transitionDraftToReview db repoId mr else db
    let cancelActs : List CoreAction :=
      match getActiveInvocationID db1 repoId mr with
      | some inv => [.cancel inv]
      | none => []
    let key := repoId ++ "-" ++ toString mr
    let (_, db2) := createReviewRunWithInvocation db1 repoId mr newInv
    (db2, cancelActs ++ [.submit key])
  | .webhookDraft repoId mr =>
    let (_, db1) := createDraftReviewRun db repoId mr
    (db1, [])
  | .triggerReview repoId mr newInv =>
    let (rid, db1) := createReviewRun db repoId mr
    let key := repoId ++ "-" ++ toString mr
    let db2 := updateReviewRunInvocationID db1 rid newInv
    (db2, [.submit key])
  | .orchCreateRun repoId mr =>
    let (_, db1) := createReviewRun db repoId mr
    (db1, [])

/-- Execute a sequence of operations from the empty table. -/
def execCoreOps (ops : List CoreOp) : RunsDB :=
  ops.foldl (fun db op => (applyCoreOp db op).1) RunsDB.empty

/-! ## Token encryption (`crypto.Encrypt` / `crypto.Decrypt`)

`crypto.go` wraps AES-GCM from the Go standard library: `Encrypt` draws a
random 12-byte nonce, calls `gcm.Seal(nonce, nonce, plaintext, nil)` (nonce
prepended), `Decrypt` splits the nonce off and calls `gcm.Open`.  The cipher
is embedded in full: AES (FIPS 197) on byte lists, GCM (NIST SP 800-38D) on
128-bit blocks represented as `Nat`.  Bytes are `Nat < 256`; the random
nonce becomes an explicit argument of `Encrypt`. -/

/-- Multiplication by `x` in GF(2^8) modulo the AES polynomial `0x11b`. -/
def xtime (b : Nat) : Nat := if b < 128 then 2 * b else ((2 * b) % 256) ^^^ 0x1b

/-- Fuel-indexed GF(2^8) product accumulator. -/
def gmulAux : Nat → Nat → Nat → Nat
  | 0, _, _ => 0
  | n + 1, a, b => (if b % 2 == 1 then a else 0) ^^^ gmulAux n (xtime a) (b / 2)

/-- Product in GF(2^8). -/
def gmul (a b : Nat) : Nat := gmulAux 8 a b

/-- Multiplicative inverse in GF(2^8) (`0` for `0`), found by search. -/
def ginv (b : Nat) : Nat :=
  ((List.range 256).find? fun c => c != 0 && gmul b c == 1).getD 0

/-- Rotate an 8-bit value left by `n`. -/
def rotl8 (b : Nat) (n : Nat) : Nat := ((b <<< n) ||| (b >>> (8 - n))) % 256

/-- The AES S-box: multiplicative inverse followed by the affine transform
(FIPS 197 §5.1.1).  Checked against the published table. -/
def sbox (b : Nat) : Nat :=
  let x := ginv b
  x ^^^ rotl8 x 1 ^^^ rotl8 x 2 ^^^ rotl8 x 3 ^^^ rotl8 x 4 ^^^ 0x63

/-- Big-endian byte-list value of a list of bytes. -/
def bytesToNat (bs : List Nat) : Nat := bs.foldl (fun acc b => acc * 256 + b) 0

/-- The 16 big-endian bytes of a 128-bit block. -/
def natToBlockBytes (x : Nat) : List Nat :=
  (List.range 16).map fun i => x / 256 ^ (15 - i) % 256

/-- Pointwise XOR of two byte lists (length of the shorter). -/
def listXor (a b : List Nat) : List Nat := List.zipWith (fun x y => x ^^^ y) a b

/-- Fuel-indexed chunking helper. -/
def chunksOfAux (n : Nat) : Nat → List Nat → List (List Nat)
  | 0, _ => []
  | _, [] => []
  | fuel + 1, xs => xs.take n :: chunksOfAux n fuel (xs.drop n)

/-- Split a byte list into chunks of `n` bytes. -/
def chunksOf (n : Nat) (xs : List Nat) : List (List Nat) := chunksOfAux n xs.length xs

/-- Apply the S-box to each byte of a key-schedule word. -/
def subWord (w : List Nat) : List Nat := w.map sbox

/-- Rotate a key-schedule word left by one byte. -/
def rotWord : List Nat → List Nat
  | [a, b, c, d] => [b, c, d, a]
  | w => w

/-- XOR two key-schedule words. -/
def wordXor (a b : List Nat) : List Nat := List.zipWith (fun x y => x ^^^ y) a b

/-- The AES round constant bytes `rc(i)`. -/
def rcByte : Nat → Nat
  | 0 => 0
  | 1 => 1
  | n + 2 => xtime (rcByte (n + 1))

/-- One step of the AES key expansion (FIPS 197 §5.2), producing word
`w[i]` from the words so far. -/
def keyExpandStep (nk : Nat) (ws : List (List Nat)) : List (List Nat) :=
  let i := ws.length
  let temp := ws.getD (i - 1) [0, 0, 0, 0]
  let temp :=
    if i % nk == 0 then wordXor (subWord (rotWord temp)) [rcByte (i / nk), 0, 0, 0]
    else if nk > 6 && i % nk == 4 then subWord temp
    else temp
  ws ++ [wordXor (ws.getD (i - nk) [0, 0, 0, 0]) temp]

/-- Iterate the key-expansion step. -/
def iterExpand (f : List (List Nat) → List (List Nat)) : Nat → List (List Nat) → List (List Nat)
  | 0, a => a
  | n + 1, a => iterExpand f n (f a)

/-- Full AES key expansion: `4 * (nr + 1)` words. -/
def keyExpansion (key : List Nat) : List (List Nat) :=
  let nk := key.length / 4
  let nr := nk + 6
  iterExpand (keyExpandStep nk) (4 * (nr + 1) - nk) (chunksOf 4 key)

/-- SubBytes. -/
def subBytes (s : List Nat) : List Nat := s.map sbox

/-- ShiftRows on the flat (column-major) 16-byte state. -/
def shiftRows (s : List Nat) : List Nat :=
  [0, 5, 10, 15, 4, 9, 14, 3, 8, 13, 2, 7, 12, 1, 6, 11].map fun i => s.getD i 0

/-- MixColumns on one column. -/
def mixCol (a0 a1 a2 a3 : Nat) : List Nat :=
  [xtime a0 ^^^ (xtime a1 ^^^ a1) ^^^ a2 ^^^ a3,
   a0 ^^^ xtime a1 ^^^ (xtime a2 ^^^ a2) ^^^ a3,
   a0 ^^^ a1 ^^^ xtime a2 ^^^ (xtime a3 ^^^ a3),
   (xtime a0 ^^^ a0) ^^^ a1 ^^^ a2 ^^^ xtime a3]

/-- MixColumns on the 16-byte state. -/
def mixColumns (s : List Nat) : List Nat :=
  match s with
  | [a0, a1, a2, a3, b0, b1, b2, b3, c0, c1, c2, c3, d0, d1, d2, d3] =>
      mixCol a0 a1 a2 a3 ++ mixCol b0 b1 b2 b3 ++ mixCol c0 c1 c2 c3 ++ mixCol d0 d1 d2 d3
  | s => s

/-- AddRoundKey. -/
def addRoundKey (rk s : List Nat) : List Nat := List.zipWith (fun a b => a ^^^ b) s rk

/-- Round key `i` (four words of the expanded schedule, flattened). -/
def roundKeyOf (ws : List (List Nat)) (i : Nat) : List Nat := ((ws.drop (4 * i)).take 4).flatten

/-- The AES block cipher (encryption direction), on 16-byte lists.  Checked
against the FIPS 197 appendix C vectors for 128- and 256-bit keys. -/
def aesEncryptBytes (key block : List Nat) : List Nat :=
  let nk := key.length / 4
  let nr := nk + 6
  let ws := keyExpansion key
  let s0 := addRoundKey (roundKeyOf ws 0) block
  let sN := (List.range (nr - 1)).foldl
    (fun s i => addRoundKey (roundKeyOf ws (i + 1)) (mixColumns (shiftRows (subBytes s)))) s0
  addRoundKey (roundKeyOf ws nr) (shiftRows (subBytes sN))

/-- The AES block cipher on 128-bit blocks as `Nat`. -/
def aesEncBlock (key : List Nat) (x : Nat) : Nat :=
  bytesToNat (aesEncryptBytes key (natToBlockBytes x))

/-- GCM's 32-bit counter increment on the low word of a block. -/
def inc32 (x : Nat) : Nat := (x / 2 ^ 32) * 2 ^ 32 + (x % 2 ^ 32 + 1) % 2 ^ 32

/-- Iterate `inc32`. -/
def incApply : Nat → Nat → Nat
  | 0, x => x
  | n + 1, x => incApply n (inc32 x)

/-- One bit-step of the GF(2^128) product (NIST SP 800-38D algorithm 1). -/
def gfmulStep (x : Nat) (acc : Nat × Nat) (i : Nat) : Nat × Nat :=
  let z := acc.1
  let v := acc.2
  let z := if x.testBit (127 - i) then z ^^^ v else z
  let v := if v % 2 == 1 then (v / 2) ^^^ (0xe1 <<< 120) else v / 2
  (z, v)

/-- Product in GF(2^128) with the GHASH bit order. -/
def gfmul128 (x y : Nat) : Nat := ((List.range 128).foldl (gfmulStep x) (0, y)).1

/-- GHASH over a list of 128-bit blocks. -/
def ghashBlocks (h : Nat) (blocks : List Nat) : Nat :=
  blocks.foldl (fun y b => gfmul128 (y ^^^ b) h) 0

/-- Zero-pad a byte list to a multiple of 16 bytes. -/
def padTo16 (bs : List Nat) : List Nat :=
  bs ++ List.replicate ((16 - bs.length % 16) % 16) 0

/-- Byte list as a list of 128-bit blocks. -/
def bytesToBlocks (bs : List Nat) : List Nat := (chunksOf 16 (padTo16 bs)).map bytesToNat

/-- The pre-counter block `J0` for a 12-byte nonce: `nonce ‖ 0^31 ‖ 1`. -/
def gcmJ0 (nonce : List Nat) : Nat := bytesToNat (nonce ++ [0, 0, 0, 1])

/-- The GCM authentication tag over ciphertext `c` (empty additional data),
as the 16 tag bytes. -/
def gcmTag (key nonce c : List Nat) : List Nat :=
  let h := aesEncBlock key 0
  let j0 := gcmJ0 nonce
  let lenBlock := 8 * c.length
  let s := ghashBlocks h (bytesToBlocks c ++ [lenBlock])
  listXor (natToBlockBytes s) (natToBlockBytes (aesEncBlock key j0))

/-- The first `n` CTR keystream bytes (counters `inc32^1 J0, inc32^2 J0, …`). -/
def gcmKeystream (key nonce : List Nat) (n : Nat) : List Nat :=
  let j0 := gcmJ0 nonce
  (((List.range ((n + 15) / 16)).map fun i =>
      natToBlockBytes (aesEncBlock key (incApply (i + 1) j0))).flatten).take n

/-- `gcm.Seal` with empty additional data: ciphertext followed by the tag. -/
def gcmSeal (key nonce p : List Nat) : List Nat :=
  let c := listXor p (gcmKeystream key nonce p.length)
  c ++ gcmTag key nonce c

/-- `gcm.Open` with empty additional data: split off the tag, recompute and
compare it, then CTR-decrypt.  Checked, with `gcmSeal`, against the NIST
AES-256-GCM test vectors. -/
def gcmOpen (key nonce ct : List Nat) : Except String (List Nat) :=
  if ct.length < 16 then .error "message authentication failed"
  else
    let c := ct.take (ct.length - 16)
    let tag := ct.drop (ct.length - 16)
    if tag ≠ gcmTag key nonce c then .error "message authentication failed"
    else .ok (listXor c (gcmKeystream key nonce c.length))

/-- `crypto.Encrypt` with the randomly drawn nonce made explicit:
`aes.NewCipher` rejects keys that are not 16/24/32 bytes; the result is
`gcm.Seal(nonce, nonce, plaintext, nil)`, i.e. the nonce prepended to the
sealed bytes. -/
def Encrypt (plaintext key nonce : List Nat) : Except String (List Nat) :=
  if !(key.length == 16 || key.length == 24 || key.length == 32) then .error "creating cipher"
  else .ok (nonce ++ gcmSeal key nonce plaintext)

/-- `crypto.Decrypt`: reject short ciphertexts, split off the 12-byte nonce,
open the rest. -/
def Decrypt (ciphertext key : List Nat) : Except String (List Nat) :=
  if !(key.length == 16 || key.length == 24 || key.length == 32) then .error "creating cipher"
  else if ciphertext.length < 12 then .error "ciphertext too short"
  else gcmOpen key (ciphertext.take 12) (ciphertext.drop 12)

/-! ## Auxiliary predicates and concrete fixtures -/

/-- Run-row ids are below the generator (holds for every table built through
the constructors here). -/
def IdsBounded (db : RunsDB) : Prop :=
  ∀ r ∈ db.runs, r.id < db.nextId

/-- Whether an inline-post outcome stops the posting loop (any error other
than `ErrInvalidInput`). -/
def isHardError : Except ProviderErrorKind String → Bool
  | .error .invalidInput => false
  | .error _ => true
  | .ok _ => false

/-- Whether a provider call is a note (summary) write. -/
def isNoteCall : ProviderCall → Bool
  | .postNote _ => true
  | _ => false

/-- Whether a provider call is an inline-discussion write. -/
def isInlineCall : ProviderCall → Bool
  | .postInline _ => true
  | _ => false

/-- Empty joint database. -/
def emptyCore : CoreDB := { runs := RunsDB.empty, comments := CommentDB.empty }

/-- Fixture repository (go-services side). -/
def fixRepo : GoRepoRow := { id := "r1", remoteId := "100", name := "repo", fullPath := "grp/repo" }

/-- Fixture provider (go-services side). -/
def fixProv : GoProviderRow :=
  { id := "p1", type := "gitlab_self_hosted", baseURL := "", tokenEncrypted := [] }

/-- Fixture MR details with the MR in draft state. -/
def fixDraftDetails : MRDetails :=
  { title := "t", description := "d", author := "a", sourceBranch := "f", targetBranch := "main",
    headSHA := "h1", draft := true }

/-- Fixture MR details with the MR ready for review. -/
def fixReadyDetails : MRDetails :=
  { title := "t", description := "d", author := "a", sourceBranch := "f", targetBranch := "main",
    headSHA := "h2", draft := false }

/-- Fetch environment for the dedup-skip scenario: the current head hash
`h1` matches the stored completed run, and the MR is a draft. -/
def skipFetchEnv : FetchEnv :=
  { repoProv := some (fixRepo, fixProv), decryptResult := .ok [], detailsResult := .ok fixDraftDetails,
    diffResult := .ok { unifiedDiff := "", changedFiles := [], changedLines := 1 } }

/-- A `review_runs` table holding one completed run with `diff_hash = "h1"`. -/
def skipRunsDB : RunsDB :=
  { runs := [{ id := 0, repoId := "r1", mrNumber := 1, status := .completed,
               diffHash := some "h1", createdAt := 0 }],
    nextId := 1 }

/-- Fetch environment returning a 5001-line diff for a ready MR. -/
def tooLargeFetchEnv : FetchEnv :=
  { repoProv := some (fixRepo, fixProv), decryptResult := .ok [],
    detailsResult := .ok fixReadyDetails,
    diffResult := .ok { unifiedDiff := "d", changedFiles := [], changedLines := 5001 } }

/-- Post environment whose summary note is rejected as unauthorized. -/
def unauthorizedPostEnv : PostEnv :=
  { repoProv := some (fixRepo, fixProv), decryptResult := .ok [],
    postCommentResult := .error .unauthorized, inlineResult := fun _ => .ok "c1" }

/-- Post environment that accepts everything. -/
def okPostEnv : PostEnv :=
  { repoProv := some (fixRepo, fixProv), decryptResult := .ok [],
    postCommentResult := .ok "note1", inlineResult := fun _ => .ok "c1" }

/-- Orchestrator environment for the failing too-large scenario. -/
def tooLargeFailEnv : OrchEnv :=
  { lastStartedAt := none, now := 0, fetchEnv := tooLargeFetchEnv,
    reviewerResult := .ok { summary := "s", comments := [] }, postEnv := unauthorizedPostEnv }

/-- Orchestrator environment for the successful too-large scenario. -/
def tooLargeOkEnv : OrchEnv :=
  { lastStartedAt := none, now := 0, fetchEnv := tooLargeFetchEnv,
    reviewerResult := .ok { summary := "s", comments := [] }, postEnv := okPostEnv }

/-- Fetch environment whose `GetMRDetails` fails with Unauthorized. -/
def detailsUnauthorizedEnv : OrchEnv :=
  { lastStartedAt := none, now := 0,
    fetchEnv := { repoProv := some (fixRepo, fixProv), decryptResult := .ok [],
                  detailsResult := .error .unauthorized,
                  diffResult := .ok { unifiedDiff := "", changedFiles := [], changedLines := 0 } },
    reviewerResult := .ok { summary := "s", comments := [] }, postEnv := okPostEnv }

/-- Webhook environment: one provider `p1` with secret `"sec"`, no repos. -/
def fixWebhookEnv : WebhookEnv :=
  { getProvider := fun pid =>
      if pid == "p1" then .ok { id := "p1", webhookSecret := some "sec" } else .noRows
    getRepoByRemoteID := fun _ _ => .noRows
    getActiveInvocationID := .ok none
    createDraftRunOk := true
    sendResult := some "inv1"
    createRunOk := true
    hasDispatcher := true }

/-- A well-formed merge-request webhook payload. -/
def fixPayload : GitLabWebhookPayload :=
  { objectKind := "merge_request", project := { id := 100 },
    objectAttributes := { iid := 1, action := "open", draft := false, workInProgress := false },
    changes := none }

/-- Two successive webhook dispatches for the same MR. -/
def doubleDispatchOps : List CoreOp :=
  [.webhookDispatch "r1" 1 false "inv1", .webhookDispatch "r1" 1 false "inv2"]

/-- Comment table fixture: two unposted comments for run 0 and one already
posted row for run 0. -/
def fixCommentDB : CommentDB :=
  { rows :=
      [{ id := 0, reviewRunId := 0, filePath := "a.go", lineStart := 3, lineEnd := 3,
         body := "x", createdAt := 0 },
       { id := 1, reviewRunId := 0, filePath := "b.go", lineStart := 7, lineEnd := 7,
         body := "y", createdAt := 1 },
       { id := 2, reviewRunId := 0, filePath := "c.go", lineStart := 9, lineEnd := 9,
         body := "z", providerCommentId := some "done", posted := true, createdAt := 2 }],
    nextId := 3 }

/-- Post environment where comment 0 is rejected as an invalid position and
comment 1 succeeds. -/
def invalidInputPostEnv : PostEnv :=
  { repoProv := some (fixRepo, fixProv), decryptResult := .ok [],
    postCommentResult := .ok "note1",
    inlineResult := fun cid => if cid == 0 then .error .invalidInput else .ok "c1" }

/-! ## Theorems -/

/-- C10: a webhook's `changes` payload is classified as a draft→ready
transition exactly when `changes.draft` is present and both `previous` and
`current` are JSON booleans with `previous = true` and `current = false`;
absent objects, `null`s and non-boolean values never qualify. -/
theorem C10_draft_to_ready_classification (changes : Option GitLabWebhookChanges) :
    isDraftToReadyTransition changes = true ↔
      ∃ fc, changes = some { draft := some fc } ∧
        fc.previous = Jsonv.bool true ∧ fc.current = Jsonv.bool false := by
  cases changes with
  | none => simp [isDraftToReadyTransition]
  | some ch =>
    obtain ⟨draftFc⟩ := ch
    cases draftFc with
    | none =>
      simp only [isDraftToReadyTransition]
      constructor
      · intro h; cases h
      · rintro ⟨fc, h, -, -⟩; cases h
    | some fc =>
      obtain ⟨prev, curr⟩ := fc
      cases prev <;> cases curr <;>
        simp [isDraftToReadyTransition, Jsonv.asBool]

/-- C6: the orchestrator's debounce reads `last_started_at`, sets it to
`now`, and sleeps for the debounce interval exactly when a previously stored
(positive) value exists and lies within 3 minutes of `now`. -/
theorem C6_debounce_iff (st : Option Int) (now : Int)
    (hpos : ∀ v, st = some v → 0 < v) :
    ((runDebounce st now).sleeps = true ↔ DebounceSpec st now) ∧
      (runDebounce st now).newLastStartedAt = now := by
  refine ⟨?_, rfl⟩
  cases st with
  | none =>
    simp [runDebounce, DebounceSpec]
  | some v =>
    have hv := hpos v rfl
    simp [runDebounce, DebounceSpec, hv]

/-- Witness for C6 at a concrete recently-started state. -/
theorem C6_debounce_iff_witness :
    ((runDebounce (some 5) 10).sleeps = true ↔ DebounceSpec (some 5) 10) ∧
      (runDebounce (some 5) 10).newLastStartedAt = 10 :=
  C6_debounce_iff (some 5) 10 (by intro v hv; cases hv; decide)

/-- C3 counterexample: `RateLimited` and `InvalidInput` provider errors are
not classified as terminal by `classifyProviderError`; they fall through the
default branch unclassified (retryable). -/
theorem C3_counterexample :
    (classifyProviderError .rateLimited).isTerminal = false ∧
      (classifyProviderError .invalidInput).isTerminal = false := by
  exact ⟨rfl, rfl⟩

/-- Updating the status of a run id that exists in the list makes the looked
up status that value (every row with the id is rewritten, so the first match
carries the new status). -/
theorem find_status_after_update (l : List ReviewRun) (runId : Nat) (s : RunStatus)
    (h : ∃ r ∈ l, r.id = runId) :
    ((l.map fun r => if r.id == runId then { r with status := s } else r).find?
        fun r => r.id == runId).map (fun r => r.status) = some s := by
  induction l with
  | nil => simp at h
  | cons a l ih =>
    simp only [List.map_cons]
    by_cases ha : a.id = runId
    · rw [List.find?_cons_of_pos _ (by simp [ha])]
      simp [ha]
    · rw [List.find?_cons_of_neg _ (by simp [ha])]
      obtain ⟨r, hr, hid⟩ := h
      rcases List.mem_cons.mp hr with h' | h'
      · exact absurd (h' ▸ hid) ha
      · exact ih ⟨r, h', hid⟩

/-- `getRunStatus` after `updateReviewRunStatus` on an existing id. -/
theorem getRunStatus_update_self (db : RunsDB) (runId : Nat) (s : RunStatus)
    (h : ∃ r ∈ db.runs, r.id = runId) :
    getRunStatus (updateReviewRunStatus db runId s) runId = some s :=
  find_status_after_update db.runs runId s h

/-- Row existence (by id) survives any id-preserving row rewrite. -/
theorem exists_id_of_map (l : List ReviewRun) (runId : Nat) (f : ReviewRun → ReviewRun)
    (hf : ∀ r, (f r).id = r.id) (h : ∃ r ∈ l, r.id = runId) :
    ∃ r ∈ l.map f, r.id = runId := by
  obtain ⟨r, hr, hid⟩ := h
  exact ⟨f r, List.mem_map_of_mem f hr, (hf r).trans hid⟩

/-- A fetch whose `GetMRDetails` call fails returns the classified error and
a trace of just that call, for every database state. -/
theorem fetchPRDetails_details_error (env : FetchEnv) (db : RunsDB) (req : FetchRequest)
    (rp : GoRepoRow × GoProviderRow) (tk : List Nat) (k : ProviderErrorKind)
    (h1 : env.repoProv = some rp) (h2 : env.decryptResult = .ok tk)
    (h3 : isSupportedProviderType rp.2.type = true) (h4 : env.detailsResult = .error k) :
    fetchPRDetails env db req = (.error (.provider (classifyProviderError k)), [.getMRDetails]) := by
  obtain ⟨repo, prov⟩ := rp
  simp only [fetchPRDetails, h1, h2, h3, h4]
  simp

/-- C3 (amended): of the provider error kinds, exactly NotFound,
Unauthorized and Forbidden are classified terminal, and the orchestrator
marks the ReviewRun `failed` before propagating such a classified fetch
error (RateLimited and InvalidInput reach the runtime unclassified, i.e.
retried — see the counterexample). -/
theorem C3_terminal_errors_mark_failed :
    (∀ k, (k = ProviderErrorKind.notFound ∨ k = ProviderErrorKind.unauthorized ∨
        k = ProviderErrorKind.forbidden) →
      (classifyProviderError k).isTerminal = true) ∧
    (∀ (env : OrchEnv) (st : CoreDB) (req : RunRequest) (rp : GoRepoRow × GoProviderRow)
        (tk : List Nat) (k : ProviderErrorKind),
      req.runId = none →
      env.fetchEnv.repoProv = some rp →
      env.fetchEnv.decryptResult = .ok tk →
      isSupportedProviderType rp.2.type = true →
      env.fetchEnv.detailsResult = .error k →
      (prreviewRun env st req).result = .error (.fetch (.provider (classifyProviderError k))) ∧
        getRunStatus (prreviewRun env st req).db.runs st.runs.nextId = some RunStatus.failed) := by
  constructor
  · rintro k (rfl | rfl | rfl) <;> rfl
  · intro env st req rp tk k hreq h1 h2 h3 h4
    have hfetch := fetchPRDetails_details_error env.fetchEnv
      (createReviewRun st.runs req.repoId req.mrNumber).2
      { repoId := req.repoId, mrNumber := req.mrNumber, force := req.force } rp tk k h1 h2 h3 h4
    have hex : ∃ r ∈ (createReviewRun st.runs req.repoId req.mrNumber).2.runs,
        r.id = st.runs.nextId := by
      refine ⟨_, List.mem_append_right _ (List.mem_singleton.mpr rfl), rfl⟩
    simp only [prreviewRun, hreq, hfetch]
    exact ⟨trivial, getRunStatus_update_self _ _ _ hex⟩

/-- C2 counterexample: with the MR in draft state (`details.draft = true`)
and the stored completed hash matching the current head, the skip response
carries `draft = false` (the Go struct literal omits the field), not the
draft flag from `GetMRDetails` as the claim states. -/
theorem C2_counterexample :
    fixDraftDetails.draft = true ∧
    (fetchPRDetails skipFetchEnv skipRunsDB
        { repoId := "r1", mrNumber := 1, force := false }).1 =
      .ok { skip := true, diffHash := "h1" } ∧
    ({ skip := true, diffHash := "h1" } : FetchResponse).draft = false := by
  exact ⟨rfl, rfl, rfl⟩

/-- C2 (amended): when `force` is false and the most recent completed run
with a non-NULL `diff_hash` for the pair carries exactly the current head
hash, `FetchPRDetails` returns `skip = true` with that hash, leaves every
other field (including `draft`) at its zero value, and never calls
`GetMRDiff`. -/
theorem C2_skip_path (env : FetchEnv) (db : RunsDB) (req : FetchRequest)
    (repo : GoRepoRow) (prov : GoProviderRow) (details : MRDetails) (tk : List Nat)
    (hrp : env.repoProv = some (repo, prov))
    (hdec : env.decryptResult = .ok tk)
    (htype : isSupportedProviderType prov.type = true)
    (hdet : env.detailsResult = .ok details)
    (hforce : req.force = false)
    (hhash : getLatestReviewDiffHash db req.repoId req.mrNumber = some details.headSHA) :
    fetchPRDetails env db req =
      (.ok { skip := true, diffHash := details.headSHA }, [.getMRDetails]) := by
  simp only [fetchPRDetails, hrp, hdec, htype, hdet, hforce, hhash]
  simp

/-- Witness for C2 at the concrete matching-hash draft MR. -/
theorem C2_skip_path_witness :
    fetchPRDetails skipFetchEnv skipRunsDB { repoId := "r1", mrNumber := 1, force := false } =
      (.ok { skip := true, diffHash := fixDraftDetails.headSHA }, [.getMRDetails]) :=
  C2_skip_path skipFetchEnv skipRunsDB _ fixRepo fixProv fixDraftDetails []
    rfl rfl rfl rfl rfl rfl

/-- Inserting reviewer comments preserves the posted/provider-id invariant:
new rows carry `posted = false` and a NULL `provider_comment_id`. -/
theorem postedMatches_insert (runId : Nat) (cs : List ReviewCommentInput) :
    ∀ (db : CommentDB), PostedMatchesProviderId db →
      PostedMatchesProviderId (insertReviewComments db runId cs) := by
  induction cs with
  | nil => intro db h; exact h
  | cons c cs ih =>
    intro db h
    refine ih _ ?_
    intro x hx
    rcases List.mem_append.mp hx with h' | h'
    · exact h x h'
    · rcases List.mem_singleton.mp h' with rfl
      simp

/-- Marking a comment posted preserves the invariant: `posted = true` and a
non-NULL `provider_comment_id` are written together. -/
theorem postedMatches_mark (db : CommentDB) (cid : Nat) (pcid : String)
    (h : PostedMatchesProviderId db) :
    PostedMatchesProviderId (markCommentPosted db cid pcid) := by
  intro x hx
  obtain ⟨c, hc, rfl⟩ := List.mem_map.mp hx
  by_cases hid : c.id = cid
  · simp [hid]
  · simpa [hid] using h c hc

/-- C9: every `review_comments` writer preserves `posted ↔ provider_comment_id
IS NOT NULL` (inserts create rows with `posted = false` and NULL id; the only
writer of `posted = true` also writes a non-NULL id), and under that
invariant `GetUnpostedComments` returns exactly the rows with a NULL
`provider_comment_id`. -/
theorem C9_posted_iff_provider_id :
    (∀ (db : CommentDB) (op : CommentOp), PostedMatchesProviderId db →
      PostedMatchesProviderId (applyCommentOp db op)) ∧
    (∀ (db : CommentDB) (runId : Nat), PostedMatchesProviderId db →
      getUnpostedComments db runId =
        db.rows.filter fun c => c.reviewRunId == runId && c.providerCommentId.isNone) := by
  constructor
  · intro db op h
    cases op with
    | insert runId cs => exact postedMatches_insert runId cs db h
    | mark cid pcid => exact postedMatches_mark db cid pcid h
  · intro db runId h
    apply List.filter_congr
    intro x hx
    have hx' := h x hx
    cases hp : x.posted <;> cases hpc : x.providerCommentId <;> simp_all

/-- Witness for C9: the invariant on a freshly inserted row, and the
characterization of `GetUnpostedComments` on the concrete comment table. -/
theorem C9_posted_iff_provider_id_witness :
    PostedMatchesProviderId
      (applyCommentOp CommentDB.empty (.insert 0 [(⟨"a.go", 1, 1, "b"⟩ : ReviewCommentInput)])) ∧
    getUnpostedComments fixCommentDB 0 =
      fixCommentDB.rows.filter fun c => c.reviewRunId == 0 && c.providerCommentId.isNone := by
  constructor
  · refine C9_posted_iff_provider_id.1 CommentDB.empty _ ?_
    intro c hc
    simp [CommentDB.empty] at hc
  · refine C9_posted_iff_provider_id.2 fixCommentDB 0 ?_
    intro c hc
    fin_cases hc <;> simp

/-- C7: a non-POST method yields 405, an unknown provider yields 404, a
missing or mismatched shared secret yields 401, malformed JSON yields 400;
in each rejection case the handler performs no store writes and no runtime
calls (no ReviewRun creation, no orchestration submission). -/
theorem C7_webhook_rejections :
    (∀ (env : WebhookEnv) (r : WebhookRequest), r.method ≠ "POST" →
      serveWebhook env r = (405, [])) ∧
    (∀ (env : WebhookEnv) (r : WebhookRequest), r.method = "POST" →
      env.getProvider (providerIdOfPath r.path) = .noRows →
      serveWebhook env r = (404, [])) ∧
    (∀ (env : WebhookEnv) (r : WebhookRequest) (prov : ApiProviderRow), r.method = "POST" →
      providerIdOfPath r.path ≠ "" →
      env.getProvider (providerIdOfPath r.path) = .ok prov →
      (r.gitlabToken = "" ∨ prov.webhookSecret = none ∨
        (∃ s, prov.webhookSecret = some s ∧ r.gitlabToken ≠ s)) →
      serveWebhook env r = (401, [])) ∧
    (∀ (env : WebhookEnv) (r : WebhookRequest) (prov : ApiProviderRow) (s : String),
      r.method = "POST" →
      providerIdOfPath r.path ≠ "" →
      env.getProvider (providerIdOfPath r.path) = .ok prov →
      prov.webhookSecret = some s → r.gitlabToken = s → r.gitlabToken ≠ "" →
      r.body = none →
      serveWebhook env r = (400, [])) := by
  refine ⟨?_, ?_, ?_, ?_⟩
  · intro env r h
    simp [serveWebhook, h]
  · intro env r hm hp
    by_cases hpid : providerIdOfPath r.path = ""
    · simp [serveWebhook, hm, hpid]
    · simp [serveWebhook, hm, hpid, hp]
  · intro env r prov hm hpid hp htok
    rcases htok with h | h | ⟨s, hs, hne⟩
    · simp [serveWebhook, hm, hpid, hp, h]
      cases prov.webhookSecret <;> simp
    · simp [serveWebhook, hm, hpid, hp, h]
    · simp [serveWebhook, hm, hpid, hp, hs, hne]
  · intro env r prov s hm hpid hp hs htok hne hb
    simp [serveWebhook, hm, hpid, hp, hs, htok, hne, hb]
    exact htok ▸ hne

/-- Witness for C7: the four rejection codes at concrete requests against
the fixture store. -/
theorem C7_webhook_rejections_witness :
    serveWebhook fixWebhookEnv
      { method := "GET", path := "/webhooks/p1", gitlabToken := "sec",
        body := some fixPayload } = (405, []) ∧
    serveWebhook fixWebhookEnv
      { method := "POST", path := "/webhooks/nope", gitlabToken := "sec",
        body := some fixPayload } = (404, []) ∧
    serveWebhook fixWebhookEnv
      { method := "POST", path := "/webhooks/p1", gitlabToken := "wrong",
        body := some fixPayload } = (401, []) ∧
    serveWebhook fixWebhookEnv
      { method := "POST", path := "/webhooks/p1", gitlabToken := "sec",
        body := none } = (400, []) := by
  refine ⟨?_, ?_, ?_, ?_⟩
  · exact C7_webhook_rejections.1 fixWebhookEnv _ (by decide)
  · exact C7_webhook_rejections.2.1 fixWebhookEnv _ rfl (by decide)
  · exact C7_webhook_rejections.2.2.1 fixWebhookEnv _
      { id := "p1", webhookSecret := some "sec" } rfl (by decide) (by decide)
      (Or.inr (Or.inr ⟨"sec", rfl, by decide⟩))
  · exact C7_webhook_rejections.2.2.2 fixWebhookEnv _
      { id := "p1", webhookSecret := some "sec" } "sec" rfl (by decide) (by decide) rfl rfl
      (by decide) rfl

/-- C1 counterexample: two successive webhook dispatches for the same
(repo, MR) leave two `pending` rows at once — the cancel of the first
invocation is sent to the runtime only and never changes the first row's
status — so the single-active row invariant fails in a reachable state. -/
theorem C1_counterexample :
    ¬ SingleActiveInvariant (execCoreOps doubleDispatchOps) := by
  intro h
  have h2 : activeCount (execCoreOps doubleDispatchOps) "r1" 1 = 2 := rfl
  have := h "r1" 1
  omega

/-- C1 (amended): each run-row writer inserts at most one new row, and the
webhook dispatch protocol issues the cancel of the most recent prior
`pending`/`running` invocation before submitting the replacement
orchestration; the database itself can hold several `pending`/`running`
rows for one (repo_id, mr_number) at once. -/
theorem C1_cancel_before_submit :
    (∀ (db : RunsDB) (op : CoreOp),
      ((applyCoreOp db op).1.runs).length ≤ db.runs.length + 1) ∧
    (∀ (db : RunsDB) (repoId : String) (mr : Int) (draftToReady : Bool) (newInv inv : String),
      getActiveInvocationID
          (if draftToReady then transitionDraftToReview db repoId mr else db) repoId mr =
        some inv →
      (applyCoreOp db (.webhookDispatch repoId mr draftToReady newInv)).2 =
        [.cancel inv, .submit (repoId ++ "-" ++ toString mr)]) := by
  constructor
  · intro db op
    cases op with
    | webhookDispatch repoId mr draftToReady newInv =>
      simp only [applyCoreOp, createReviewRunWithInvocation]
      have hlen : (if draftToReady then transitionDraftToReview db repoId mr else db).runs.length
          = db.runs.length := by
        by_cases hd : draftToReady
        · simp only [hd, if_pos, transitionDraftToReview]
          cases (db.runs.filter fun r =>
              r.repoId == repoId && r.mrNumber == mr && r.status == .draft).getLast? with
          | none => rfl
          | some row => simp [updateReviewRunStatus]
        · simp [hd]
      simp [hlen]
    | webhookDraft repoId mr => simp [applyCoreOp, createDraftReviewRun]
    | triggerReview repoId mr newInv =>
      simp [applyCoreOp, createReviewRun, updateReviewRunInvocationID]
    | orchCreateRun repoId mr => simp [applyCoreOp, createReviewRun]
  · intro db repoId mr draftToReady newInv inv h
    simp [applyCoreOp, h]

/-- Witness for C1: after one dispatch, the second dispatch cancels `inv1`
before submitting; and a single operation adds one row to the empty table. -/
theorem C1_cancel_before_submit_witness :
    (applyCoreOp (execCoreOps [.webhookDispatch "r1" 1 false "inv1"])
        (.webhookDispatch "r1" 1 false "inv2")).2 =
      [.cancel "inv1", .submit ("r1" ++ "-" ++ toString (1 : Int))] ∧
    ((applyCoreOp RunsDB.empty (.orchCreateRun "r1" 1)).1.runs).length ≤
      RunsDB.empty.runs.length + 1 := by
  constructor
  · exact C1_cancel_before_submit.2 (execCoreOps [.webhookDispatch "r1" 1 false "inv1"])
      "r1" 1 false "inv2" "inv1" rfl
  · exact C1_cancel_before_submit.1 RunsDB.empty (.orchCreateRun "r1" 1)

/-- The posting loop only adds to the call trace. -/
theorem postLoop_calls_mono (env : PostEnv) (cs : List ReviewCommentRow) :
    ∀ (db : CommentDB) (posted : Nat) (calls : List ProviderCall) (a : ProviderCall),
      a ∈ calls → a ∈ (postLoop env db cs posted calls).2.2 := by
  induction cs with
  | nil => intro db posted calls a ha; simpa [postLoop] using ha
  | cons c rest ih =>
    intro db posted calls a ha
    simp only [postLoop]
    cases h : env.inlineResult c.id with
    | error e =>
      cases e <;> simp only []
      case invalidInput => exact ih _ _ _ a (List.mem_append_left _ ha)
      all_goals exact List.mem_append_left _ ha
    | ok rid => exact ih _ _ _ a (List.mem_append_left _ ha)

/-- Every inline call in the loop's trace either was there initially or
targets one of the loop's input comments. -/
theorem postLoop_calls_from (env : PostEnv) (cs : List ReviewCommentRow) :
    ∀ (db : CommentDB) (posted : Nat) (calls : List ProviderCall) (a : ProviderCall),
      a ∈ (postLoop env db cs posted calls).2.2 →
      a ∈ calls ∨ ∃ c ∈ cs, a = ProviderCall.postInline c.id := by
  induction cs with
  | nil => intro db posted calls a ha; simp [postLoop] at ha; exact Or.inl ha
  | cons c rest ih =>
    intro db posted calls a ha
    have step : ∀ (db' : CommentDB) (p' : Nat),
        a ∈ (postLoop env db' rest p' (calls ++ [ProviderCall.postInline c.id])).2.2 →
        a ∈ calls ∨ ∃ x ∈ c :: rest, a = ProviderCall.postInline x.id := by
      intro db' p' h'
      rcases ih db' p' _ a h' with h'' | ⟨x, hx, rfl⟩
      · rcases List.mem_append.mp h'' with h3 | h3
        · exact Or.inl h3
        · exact Or.inr ⟨c, List.mem_cons_self c rest, List.mem_singleton.mp h3 ▸ rfl⟩
      · exact Or.inr ⟨x, List.mem_cons_of_mem c hx, rfl⟩
    simp only [postLoop] at ha
    cases h : env.inlineResult c.id with
    | error e =>
      rw [h] at ha
      cases e <;> simp only [] at ha
      case invalidInput => exact step _ _ ha
      all_goals
        rcases List.mem_append.mp ha with h3 | h3
        · exact Or.inl h3
        · exact Or.inr ⟨c, List.mem_cons_self c rest, List.mem_singleton.mp h3 ▸ rfl⟩
    | ok rid =>
      rw [h] at ha
      exact step _ _ ha

/-- When no comment in the list produces a hard (loop-stopping) error, every
comment in the list is attempted. -/
theorem postLoop_attempts_all (env : PostEnv) (cs : List ReviewCommentRow)
    (hno : ∀ c ∈ cs, isHardError (env.inlineResult c.id) = false) :
    ∀ (db : CommentDB) (posted : Nat) (calls : List ProviderCall) (c : ReviewCommentRow),
      c ∈ cs → ProviderCall.postInline c.id ∈ (postLoop env db cs posted calls).2.2 := by
  induction cs with
  | nil => intro db posted calls c hc; cases hc
  | cons x rest ih =>
    intro db posted calls c hc
    have hx := hno x (List.mem_cons_self x rest)
    simp only [postLoop]
    have hmem : ProviderCall.postInline c.id ∈ calls ++ [ProviderCall.postInline x.id] ∨
        c ∈ rest := by
      rcases List.mem_cons.mp hc with rfl | h'
      · exact Or.inl (List.mem_append_right _ (List.mem_singleton.mpr rfl))
      · exact Or.inr h'
    cases h : env.inlineResult x.id with
    | error e =>
      cases e <;> simp only [isHardError, h] at hx ⊢
      case invalidInput =>
        rcases hmem with h' | h'
        · exact postLoop_calls_mono env rest _ _ _ _ h'
        · exact ih (fun y hy => hno y (List.mem_cons_of_mem x hy)) _ _ _ c h'
      all_goals simp at hx
    | ok rid =>
      rcases hmem with h' | h'
      · exact postLoop_calls_mono env rest _ _ _ _ h'
      · exact ih (fun y hy => hno y (List.mem_cons_of_mem x hy)) _ _ _ c h'

/-- A row already recorded as skipped stays skipped while the loop marks
other ids. -/
theorem postLoop_preserves_skipped (env : PostEnv) (cs : List ReviewCommentRow) (tid : Nat)
    (hnotin : ∀ c ∈ cs, c.id ≠ tid) :
    ∀ (db : CommentDB) (posted : Nat) (calls : List ProviderCall),
      (∃ row ∈ db.rows, row.id = tid ∧ row.posted = true ∧
        row.providerCommentId = some "skipped") →
      ∃ row ∈ (postLoop env db cs posted calls).2.1.rows,
        row.id = tid ∧ row.posted = true ∧ row.providerCommentId = some "skipped" := by
  induction cs with
  | nil => intro db posted calls h; simpa [postLoop] using h
  | cons x rest ih =>
    intro db posted calls h
    have hmark : ∀ (pcid : String),
        ∃ row ∈ (markCommentPosted db x.id pcid).rows, row.id = tid ∧ row.posted = true ∧
          row.providerCommentId = some "skipped" := by
      intro pcid
      obtain ⟨row, hrow, hid, hp, hpc⟩ := h
      refine ⟨row, ?_, hid, hp, hpc⟩
      have hf : (fun c => if c.id == x.id then
          { c with posted := true, providerCommentId := some pcid } else c) row = row := by
        simp only [beq_iff_eq]
        rw [if_neg]
        intro hcontra
        exact hnotin x (List.mem_cons_self x rest) (hcontra ▸ hid)
      exact List.mem_map.mpr ⟨row, hrow, hf⟩
    have hrest : ∀ c ∈ rest, c.id ≠ tid := fun c hc => hnotin c (List.mem_cons_of_mem x hc)
    simp only [postLoop]
    cases hres : env.inlineResult x.id with
    | error e =>
      cases e <;> simp only []
      case invalidInput => exact ih hrest _ _ _ (hmark "skipped")
      all_goals exact h
    | ok rid => exact ih hrest _ _ _ (hmark rid)

/-- A comment whose inline post is rejected as `InvalidInput` ends the loop
marked with the `"skipped"` sentinel (and `posted = true`), provided no
earlier comment stops the loop with a hard error and ids are unique. -/
theorem postLoop_marks_skipped (env : PostEnv) (cs : List ReviewCommentRow) :
    ∀ (db : CommentDB) (posted : Nat) (calls : List ProviderCall) (c : ReviewCommentRow),
      c ∈ cs →
      (cs.map fun x => x.id).Nodup →
      (∀ x ∈ cs, isHardError (env.inlineResult x.id) = false) →
      env.inlineResult c.id = .error .invalidInput →
      (∃ row ∈ db.rows, row.id = c.id) →
      ∃ row ∈ (postLoop env db cs posted calls).2.1.rows,
        row.id = c.id ∧ row.posted = true ∧ row.providerCommentId = some "skipped" := by
  induction cs with
  | nil => intro db posted calls c hc; cases hc
  | cons x rest ih =>
    intro db posted calls c hc hnodup hno hinv hex
    have hnodup' := hnodup
    rw [List.map_cons, List.nodup_cons] at hnodup'
    obtain ⟨hxnotin, hnodupRest⟩ := hnodup'
    have hnoRest : ∀ y ∈ rest, isHardError (env.inlineResult y.id) = false :=
      fun y hy => hno y (List.mem_cons_of_mem x hy)
    have hexMark : ∀ (cid : Nat) (pcid : String), (∃ row ∈ db.rows, row.id = c.id) →
        ∃ row ∈ (markCommentPosted db cid pcid).rows, row.id = c.id := by
      intro cid pcid ⟨row, hrow, hid⟩
      refine ⟨_, List.mem_map_of_mem _ hrow, ?_⟩
      split <;> simp [hid]
    rcases List.mem_cons.mp hc with rfl | hcrest
    · simp only [postLoop, hinv]
      apply postLoop_preserves_skipped env rest c.id
      · intro y hy hcontra
        exact hxnotin (hcontra ▸ List.mem_map_of_mem (fun z => z.id) hy)
      · obtain ⟨row, hrow, hid⟩ := hex
        refine ⟨{ row with posted := true, providerCommentId := some "skipped" },
          List.mem_map.mpr ⟨row, hrow, by simp [hid]⟩, hid, rfl, rfl⟩
    · have hx := hno x (List.mem_cons_self x rest)
      simp only [postLoop]
      cases hres : env.inlineResult x.id with
      | error e =>
        cases e <;> simp only [isHardError, hres] at hx ⊢
        case invalidInput =>
          exact ih _ _ _ c hcrest hnodupRest hnoRest hinv (hexMark _ _ hex)
        all_goals simp at hx
      | ok rid =>
        exact ih _ _ _ c hcrest hnodupRest hnoRest hinv (hexMark _ _ hex)

/-- C5: during `Post`, a comment rejected with `InvalidInput` is written the
sentinel `provider_comment_id = "skipped"` (with `posted = true`) while the
remaining unposted comments are still attempted; and a row whose
`provider_comment_id` was set by `MarkCommentPosted` (so `posted = true`,
including `"skipped"` rows) is never selected for posting again. -/
theorem C5_invalid_input_skipped :
    (∀ (env : PostEnv) (st : CoreDB) (req : PostRequest) (rp : GoRepoRow × GoProviderRow)
        (tk : List Nat) (nid : String),
      req.dryRun = false →
      env.repoProv = some rp →
      env.decryptResult = .ok tk →
      isSupportedProviderType rp.2.type = true →
      env.postCommentResult = .ok nid →
      (st.comments.rows.map fun c => c.id).Nodup →
      (∀ x ∈ getUnpostedComments st.comments req.reviewRunId,
        isHardError (env.inlineResult x.id) = false) →
      ∀ c ∈ getUnpostedComments st.comments req.reviewRunId,
        ProviderCall.postInline c.id ∈ (postReview env st req).2.2 ∧
        (env.inlineResult c.id = .error .invalidInput →
          ∃ row ∈ (postReview env st req).2.1.comments.rows,
            row.id = c.id ∧ row.posted = true ∧ row.providerCommentId = some "skipped")) ∧
    (∀ (env : PostEnv) (st : CoreDB) (req : PostRequest),
      (st.comments.rows.map fun c => c.id).Nodup →
      ∀ c ∈ st.comments.rows, c.posted = true →
        ProviderCall.postInline c.id ∉ (postReview env st req).2.2) := by
  constructor
  · intro env st req rp tk nid hdry hrp hdec htype hnote hnodup hnohard c hc
    obtain ⟨repo, prov⟩ := rp
    have hnodupUn : ((getUnpostedComments st.comments req.reviewRunId).map
        fun x => x.id).Nodup :=
      hnodup.sublist ((List.filter_sublist _).map _)
    constructor
    · simp only [postReview, hdry, hrp, hdec, htype, hnote]
      simp only [Bool.not_true, Bool.false_eq_true, if_false]
      exact postLoop_attempts_all env _ hnohard _ _ _ c hc
    · intro hinv
      simp only [postReview, hdry, hrp, hdec, htype, hnote]
      simp only [Bool.not_true, Bool.false_eq_true, if_false]
      exact postLoop_marks_skipped env _ _ _ _ c hc hnodupUn hnohard hinv
        ⟨c, List.mem_of_mem_filter hc, rfl⟩
  · intro env st req hnodup c hc hcp hmem
    by_cases hdry : req.dryRun = true
    · simp [postReview, hdry] at hmem
    · rw [Bool.not_eq_true] at hdry
      cases hrp : env.repoProv with
      | none => simp [postReview, hdry, hrp] at hmem
      | some rp =>
        obtain ⟨repo, prov⟩ := rp
        cases hdec : env.decryptResult with
        | error e => simp [postReview, hdry, hrp, hdec] at hmem
        | ok tk =>
          by_cases htype : isSupportedProviderType prov.type = true
          · cases hnote : env.postCommentResult with
            | error e => simp [postReview, hdry, hrp, hdec, htype, hnote] at hmem
            | ok nid =>
              simp only [postReview, hdry, hrp, hdec, htype, hnote] at hmem
              simp only [Bool.not_true, Bool.false_eq_true, if_false] at hmem
              rcases postLoop_calls_from env _ _ _ _ _ hmem with h | ⟨c', hc', heq⟩
              · simp at h
              · have hideq : c.id = c'.id := by
                  injection heq
                have hc'row := List.mem_of_mem_filter hc'
                have hceq : c = c' :=
                  List.inj_on_of_nodup_map hnodup hc hc'row hideq
                have : c'.posted = false := by
                  have := List.of_mem_filter hc'
                  simp at this
                  exact this.2
                rw [← hceq, hcp] at this
                cases this
          · simp [postReview, hdry, hrp, hdec, htype] at hmem

/-- Witness for C5: on the concrete two-comment table, comment 0 (rejected
as invalid position) ends marked `"skipped"`, comment 1 is attempted, and
the already-posted row 2 is never attempted. -/
theorem C5_invalid_input_skipped_witness :
    (ProviderCall.postInline 0 ∈
      (postReview invalidInputPostEnv { runs := RunsDB.empty, comments := fixCommentDB }
        { reviewRunId := 0, repoId := "r1", mrNumber := 1, repoRemoteId := "100",
          summary := "s", dryRun := false }).2.2) ∧
    (∃ row ∈ (postReview invalidInputPostEnv { runs := RunsDB.empty, comments := fixCommentDB }
        { reviewRunId := 0, repoId := "r1", mrNumber := 1, repoRemoteId := "100",
          summary := "s", dryRun := false }).2.1.comments.rows,
      row.id = 0 ∧ row.posted = true ∧ row.providerCommentId = some "skipped") ∧
    (ProviderCall.postInline 2 ∉
      (postReview invalidInputPostEnv { runs := RunsDB.empty, comments := fixCommentDB }
        { reviewRunId := 0, repoId := "r1", mrNumber := 1, repoRemoteId := "100",
          summary := "s", dryRun := false }).2.2) := by
  have h1 := C5_invalid_input_skipped.1 invalidInputPostEnv
    { runs := RunsDB.empty, comments := fixCommentDB }
    { reviewRunId := 0, repoId := "r1", mrNumber := 1, repoRemoteId := "100",
      summary := "s", dryRun := false }
    (fixRepo, fixProv) [] "note1" rfl rfl rfl rfl rfl (by decide) (by decide)
  have hc0 : (⟨0, 0, "a.go", 3, 3, "x", none, false, 0⟩ : ReviewCommentRow) ∈
      getUnpostedComments fixCommentDB 0 := by decide
  have h2 := C5_invalid_input_skipped.2 invalidInputPostEnv
    { runs := RunsDB.empty, comments := fixCommentDB }
    { reviewRunId := 0, repoId := "r1", mrNumber := 1, repoRemoteId := "100",
      summary := "s", dryRun := false }
    (by decide) ⟨2, 0, "c.go", 9, 9, "z", some "done", true, 2⟩ (by decide) rfl
  exact ⟨(h1 _ hc0).1, (h1 _ hc0).2 rfl, h2⟩

/-- C4 counterexample: a 5001-line diff takes the too-large path, but when
posting the canned note fails (here: Unauthorized), the orchestrator marks
the run `failed` — refuting "terminates with status completed, never
failed". -/
theorem C4_counterexample :
    (prreviewRun tooLargeFailEnv emptyCore
        { runId := none, repoId := "r1", mrNumber := 1, dryRun := false, force := false }).result =
      .error (.post (.provider (.terminal 401 .unauthorized))) ∧
    getRunStatus (prreviewRun tooLargeFailEnv emptyCore
        { runId := none, repoId := "r1", mrNumber := 1, dryRun := false, force := false }).db.runs
        0 = some RunStatus.failed := by
  exact ⟨rfl, rfl⟩

/-- `Post` with no unposted comments for the run posts exactly the summary
note and succeeds. -/
theorem postReview_no_unposted (env : PostEnv) (st : CoreDB) (req : PostRequest)
    (rp : GoRepoRow × GoProviderRow) (tk : List Nat) (nid : String)
    (hdry : req.dryRun = false) (hrp : env.repoProv = some rp)
    (hdec : env.decryptResult = .ok tk)
    (htype : isSupportedProviderType rp.2.type = true)
    (hnote : env.postCommentResult = .ok nid)
    (hnone : getUnpostedComments st.comments req.reviewRunId = []) :
    postReview env st req =
      (.ok { commentsPosted := 0, summaryPosted := true },
       { st with runs := updateReviewRunSummary st.runs req.reviewRunId req.summary },
       [.postNote req.summary]) := by
  obtain ⟨repo, prov⟩ := rp
  simp only [postReview, hdry, hrp, hdec, htype, hnote, hnone]
  simp [postLoop]

/-- A fetch with `force = true` whose provider calls succeed returns the
full response. -/
theorem fetchPRDetails_full (env : FetchEnv) (db : RunsDB) (req : FetchRequest)
    (repo : GoRepoRow) (prov : GoProviderRow) (details : MRDetails) (diff : MRDiff)
    (tk : List Nat)
    (hrp : env.repoProv = some (repo, prov)) (hdec : env.decryptResult = .ok tk)
    (htype : isSupportedProviderType prov.type = true)
    (hdet : env.detailsResult = .ok details) (hdiff : env.diffResult = .ok diff)
    (hforce : req.force = true) :
    fetchPRDetails env db req =
      (.ok { diff := diff.unifiedDiff
             mrTitle := details.title
             mrDescription := details.description
             mrAuthor := details.author
             sourceBranch := details.sourceBranch
             targetBranch := details.targetBranch
             changedFiles := diff.changedFiles.map fun f => f.newPath
             changedLines := diff.changedLines
             diffTooLarge := diff.changedLines > maxChangedLines
             repoRemoteId := repo.remoteId
             diffHash := details.headSHA
             draft := details.draft },
       [.getMRDetails, .getMRDiff]) := by
  simp only [fetchPRDetails, hrp, hdec, htype, hdet, hdiff, hforce]
  simp

/-- C4 (amended): 5000 changed lines is not too large while 5001 is; a
too-large run whose canned note is accepted by the provider posts exactly
that one note, no inline discussions, and completes — but a failing note
post marks it `failed` (see the counterexample). -/
theorem C4_too_large_one_note_completed :
    (∀ (env : FetchEnv) (db : RunsDB) (req : FetchRequest) (repo : GoRepoRow)
        (prov : GoProviderRow) (details : MRDetails) (diff : MRDiff) (tk : List Nat),
      env.repoProv = some (repo, prov) → env.decryptResult = .ok tk →
      isSupportedProviderType prov.type = true → env.detailsResult = .ok details →
      env.diffResult = .ok diff → req.force = true →
      (diff.changedLines = 5000 →
        ∃ resp, (fetchPRDetails env db req).1 = .ok resp ∧ resp.diffTooLarge = false) ∧
      (diff.changedLines = 5001 →
        ∃ resp, (fetchPRDetails env db req).1 = .ok resp ∧ resp.diffTooLarge = true)) ∧
    (∀ (env : OrchEnv) (st : CoreDB) (req : RunRequest) (repo : GoRepoRow)
        (prov : GoProviderRow) (details : MRDetails) (diff : MRDiff) (tk : List Nat)
        (rp2 : GoRepoRow × GoProviderRow) (tk2 : List Nat) (nid : String),
      req.runId = none → req.force = true → req.dryRun = false →
      env.fetchEnv.repoProv = some (repo, prov) → env.fetchEnv.decryptResult = .ok tk →
      isSupportedProviderType prov.type = true →
      env.fetchEnv.detailsResult = .ok details → details.draft = false →
      env.fetchEnv.diffResult = .ok diff → diff.changedLines > 5000 →
      env.postEnv.repoProv = some rp2 → env.postEnv.decryptResult = .ok tk2 →
      isSupportedProviderType rp2.2.type = true →
      env.postEnv.postCommentResult = .ok nid →
      getUnpostedComments st.comments st.runs.nextId = [] →
      (prreviewRun env st req).result = .ok st.runs.nextId ∧
      getRunStatus (prreviewRun env st req).db.runs st.runs.nextId =
        some RunStatus.completed ∧
      (prreviewRun env st req).calls.filter isNoteCall = [.postNote tooLargeSummary] ∧
      (prreviewRun env st req).calls.filter isInlineCall = []) := by
  constructor
  · intro env db req repo prov details diff tk hrp hdec htype hdet hdiff hforce
    have hfetch := fetchPRDetails_full env db req repo prov details diff tk
      hrp hdec htype hdet hdiff hforce
    constructor
    · intro h5000
      refine ⟨_, by rw [hfetch], ?_⟩
      simp [h5000, maxChangedLines]
    · intro h5001
      refine ⟨_, by rw [hfetch], ?_⟩
      simp [h5001, maxChangedLines]
  · intro env st req repo prov details diff tk rp2 tk2 nid hreq hforce hdry
      hrp hdec htype hdet hdraft hdiff hbig hrp2 hdec2 htype2 hnote hnoc
    have hfetch := fetchPRDetails_full env.fetchEnv
      (createReviewRun st.runs req.repoId req.mrNumber).2
      { repoId := req.repoId, mrNumber := req.mrNumber, force := req.force }
      repo prov details diff tk hrp hdec htype hdet hdiff hforce
    have hbig' : (decide (diff.changedLines > maxChangedLines)) = true := by
      simpa [maxChangedLines] using hbig
    -- existence of the freshly created run row, threaded through the updates
    have hid : ∀ (f : ReviewRun → ReviewRun), (∀ r, (f r).id = r.id) →
        ∀ (l : List ReviewRun), (∃ r ∈ l, r.id = st.runs.nextId) →
        ∃ r ∈ l.map f, r.id = st.runs.nextId := fun f hf l h => exists_id_of_map l _ f hf h
    have hex1 : ∃ r ∈ (createReviewRun st.runs req.repoId req.mrNumber).2.runs,
        r.id = st.runs.nextId :=
      ⟨_, List.mem_append_right _ (List.mem_singleton.mpr rfl), rfl⟩
    simp only [prreviewRun, hreq, hfetch, hdraft]
    by_cases hsha : (details.headSHA != "") = true
    · simp only [hsha, hbig', if_true]
      rw [postReview_no_unposted env.postEnv _ _ rp2 tk2 nid hdry hrp2 hdec2 htype2 hnote hnoc]
      refine ⟨rfl, ?_, by simp [isNoteCall], by simp [isInlineCall]⟩
      refine getRunStatus_update_self _ _ _ ?_
      exact hid _ (by intro r; split <;> rfl) _
        (hid _ (by intro r; split <;> rfl) _
          (hid _ (by intro r; split <;> rfl) _ hex1))
    · simp only [hsha, hbig', if_true, Bool.false_eq_true, if_false]
      rw [postReview_no_unposted env.postEnv _ _ rp2 tk2 nid hdry hrp2 hdec2 htype2 hnote hnoc]
      refine ⟨rfl, ?_, by simp [isNoteCall], by simp [isInlineCall]⟩
      refine getRunStatus_update_self _ _ _ ?_
      exact hid _ (by intro r; split <;> rfl) _
        (hid _ (by intro r; split <;> rfl) _ hex1)

/-- Witness for C4 on the concrete 5001-line diff with an accepting
provider: one canned note, completion, and the 5000/5001 boundary. -/
theorem C4_too_large_one_note_completed_witness :
    ((prreviewRun tooLargeOkEnv emptyCore
        { runId := none, repoId := "r1", mrNumber := 1, dryRun := false, force := true }).result =
      .ok 0) ∧
    (getRunStatus (prreviewRun tooLargeOkEnv emptyCore
        { runId := none, repoId := "r1", mrNumber := 1, dryRun := false, force := true }).db.runs
        0 = some RunStatus.completed) ∧
    (∃ resp, (fetchPRDetails
        { tooLargeFetchEnv with
            diffResult := .ok { unifiedDiff := "d", changedFiles := [], changedLines := 5000 } }
        RunsDB.empty { repoId := "r1", mrNumber := 1, force := true }).1 = .ok resp ∧
      resp.diffTooLarge = false) := by
  have h := C4_too_large_one_note_completed.2 tooLargeOkEnv emptyCore
    { runId := none, repoId := "r1", mrNumber := 1, dryRun := false, force := true }
    fixRepo fixProv fixReadyDetails
    { unifiedDiff := "d", changedFiles := [], changedLines := 5001 } []
    (fixRepo, fixProv) [] "note1"
    rfl rfl rfl rfl rfl rfl rfl rfl rfl (by decide) rfl rfl rfl rfl rfl
  refine ⟨h.1, h.2.1, ?_⟩
  exact (C4_too_large_one_note_completed.1
    { tooLargeFetchEnv with
        diffResult := .ok { unifiedDiff := "d", changedFiles := [], changedLines := 5000 } }
    RunsDB.empty { repoId := "r1", mrNumber := 1, force := true }
    fixRepo fixProv fixReadyDetails
    { unifiedDiff := "d", changedFiles := [], changedLines := 5000 } []
    rfl rfl rfl rfl rfl rfl).1 rfl

/-- A 128-bit block renders as 16 bytes. -/
theorem length_natToBlockBytes (x : Nat) : (natToBlockBytes x).length = 16 := by
  simp [natToBlockBytes]

/-- XOR of byte lists has the length of the shorter list. -/
theorem length_listXor (a b : List Nat) : (listXor a b).length = min a.length b.length := by
  simp [listXor]

/-- Flattening `m` rendered blocks gives `16 * m` bytes. -/
theorem length_flatten_blocks (g : Nat → Nat) (m : Nat) :
    (((List.range m).map fun i => natToBlockBytes (g i)).flatten).length = 16 * m := by
  induction m with
  | zero => simp
  | succ m ih =>
    rw [List.range_succ]
    simp only [List.map_append, List.flatten_append, List.length_append, ih]
    simp [length_natToBlockBytes]
    omega

/-- The CTR keystream delivers exactly the requested number of bytes. -/
theorem length_gcmKeystream (key nonce : List Nat) (n : Nat) :
    (gcmKeystream key nonce n).length = n := by
  simp only [gcmKeystream, List.length_take, length_flatten_blocks]
  omega

/-- The GCM tag is 16 bytes. -/
theorem length_gcmTag (key nonce c : List Nat) : (gcmTag key nonce c).length = 16 := by
  simp [gcmTag, length_listXor, length_natToBlockBytes]

/-- XOR-ing the same keystream twice restores the plaintext. -/
theorem listXor_cancel (p : List Nat) :
    ∀ ks : List Nat, ks.length = p.length → listXor (listXor p ks) ks = p := by
  induction p with
  | nil => intro ks h; simp [listXor]
  | cons a p ih =>
    intro ks h
    cases ks with
    | nil => simp at h
    | cons k ks =>
      simp only [listXor, List.zipWith_cons_cons]
      rw [Nat.xor_cancel_right]
      have := ih ks (by simpa using h)
      simp only [listXor] at this
      rw [this]

/-- `gcm.Open` inverts `gcm.Seal` for every key, nonce and plaintext. -/
theorem gcmOpen_gcmSeal (key nonce p : List Nat) :
    gcmOpen key nonce (gcmSeal key nonce p) = .ok p := by
  have hks : (gcmKeystream key nonce p.length).length = p.length :=
    length_gcmKeystream key nonce p.length
  have hclen : (listXor p (gcmKeystream key nonce p.length)).length = p.length := by
    rw [length_listXor, hks, Nat.min_self]
  set c := listXor p (gcmKeystream key nonce p.length) with hc
  have htag : (gcmTag key nonce c).length = 16 := length_gcmTag key nonce c
  have hsplit : (c ++ gcmTag key nonce c).length = c.length + 16 := by
    rw [List.length_append, htag]
  simp only [gcmSeal, gcmOpen, ← hc, hsplit]
  rw [if_neg (by omega)]
  have hsub : c.length + 16 - 16 = c.length := by omega
  rw [hsub, List.take_left' rfl, List.drop_left' rfl]
  rw [if_neg (by simp)]
  rw [hclen]
  exact congrArg Except.ok (listXor_cancel p _ hks)

/-- C8: for every byte sequence and 32-byte key, `Decrypt` inverts
`Encrypt` (with the drawn nonce made explicit), and two encryptions of the
same plaintext under distinct 12-byte nonces produce different ciphertexts
(the nonce is prepended to the output). -/
theorem C8_encrypt_decrypt_roundtrip :
    (∀ (p key nonce : List Nat), key.length = 32 → nonce.length = 12 →
      ∃ ct, Encrypt p key nonce = .ok ct ∧ Decrypt ct key = .ok p) ∧
    (∀ (p key n1 n2 : List Nat), key.length = 32 → n1.length = 12 → n2.length = 12 →
      n1 ≠ n2 → Encrypt p key n1 ≠ Encrypt p key n2) := by
  constructor
  · intro p key nonce hkey hnonce
    refine ⟨nonce ++ gcmSeal key nonce p, by simp [Encrypt, hkey], ?_⟩
    have hlen : ¬ (nonce ++ gcmSeal key nonce p).length < 12 := by
      rw [List.length_append, hnonce]
      omega
    simp only [Decrypt, hkey]
    rw [if_neg (by simp), if_neg hlen, List.take_left' hnonce, List.drop_left' hnonce]
    exact gcmOpen_gcmSeal key nonce p
  · intro p key n1 n2 hkey h1 h2 hne heq
    simp only [Encrypt, hkey] at heq
    rw [if_neg (by simp), if_neg (by simp)] at heq
    have heq' : n1 ++ gcmSeal key n1 p = n2 ++ gcmSeal key n2 p := by
      injection heq
    apply hne
    have htake := congrArg (List.take 12) heq'
    rwa [List.take_left' h1, List.take_left' h2] at htake

/-- Witness for C8 at a concrete plaintext, the all-zero 32-byte key and
concrete distinct nonces. -/
theorem C8_encrypt_decrypt_roundtrip_witness :
    (∃ ct, Encrypt [1, 2, 3] (List.replicate 32 0) (List.replicate 12 0) = .ok ct ∧
      Decrypt ct (List.replicate 32 0) = .ok [1, 2, 3]) ∧
    Encrypt [1] (List.replicate 32 0) (List.replicate 12 0) ≠
      Encrypt [1] (List.replicate 32 0) (7 :: List.replicate 11 0) := by
  constructor
  · exact C8_encrypt_decrypt_roundtrip.1 [1, 2, 3] _ _ (by simp) (by simp)
  · exact C8_encrypt_decrypt_roundtrip.2 [1] _ _ _ (by simp) (by simp) (by simp) (by decide)

/-- Witness for C3 at a concrete Unauthorized `GetMRDetails` failure. -/
theorem C3_terminal_errors_mark_failed_witness :
    (classifyProviderError .unauthorized).isTerminal = true ∧
    (prreviewRun detailsUnauthorizedEnv emptyCore
        { runId := none, repoId := "r1", mrNumber := 1, dryRun := false, force := false }).result =
      .error (.fetch (.provider (classifyProviderError .unauthorized))) := by
  refine ⟨C3_terminal_errors_mark_failed.1 .unauthorized (Or.inr (Or.inl rfl)), ?_⟩
  exact (C3_terminal_errors_mark_failed.2 detailsUnauthorizedEnv emptyCore
    { runId := none, repoId := "r1", mrNumber := 1, dryRun := false, force := false }
    (fixRepo, fixProv) [] .unauthorized rfl rfl rfl rfl rfl).1

end Nitai
